import Mathlib

/-!
# minimega: network-interface specifications, VLAN aliases, MAC and quoting helpers

A shallow embedding of `src/minimega/misc.go`: `processVMNet` and `lookupVLAN`,
the MAC utilities `isMac`, `allocatedMac`, `randomMac` and `init`, and the
quoting helpers `fieldsQuoteEscape`, `trimQuote` and `unescapeString`, with the
functions of the Go standard library they call (`strings.Split`,
`strings.ToLower`, `strings.Fields`, `strings.TrimSpace`, `strings.Contains`,
`strings.HasSuffix`, `unicode.IsSpace`, `net.ParseMAC`, `rand.Intn`,
`fmt.Sprintf` with `%02x`).

Conventions of the embedding.

* A Go `string` is a Lean `String`.  `strings.Split` on the separator `","` is
  computed on characters: the comma is one ASCII byte, and an ASCII byte never
  occurs inside a multi-byte UTF-8 sequence, so splitting characters and
  splitting bytes agree.  `net.ParseMAC` indexes bytes, so it runs on the UTF-8
  bytes of the string (`goBytes`).
* A Go `int` is a Lean `Int`; no arithmetic is done on it here.  A `byte` is a
  natural number below 256 (`Fin 256` in the table of MAC prefixes).
* A Go `error` is `Option GoError`, `none` being `nil`.
* Global mutable state (`allocatedVLANs`) and the outside world (the file
  written by `mustWrite`, the mesh used by `meshageSend`) are passed explicitly:
  the allocator state and the chronological list of external calls live in
  `World`, and what the outside answers to one call of `lookupVLAN` is an
  argument of type `Outside`.  The outcomes of the random draws of `randomMac`
  are arguments as well.
* `log.Debug`, `log.Info`, `log.Warn` and `log.Error` do not change control flow
  or results and are left out; `log.Fatal` ends the process and is the result
  `Exec.fatal`.  A panic of the Go runtime is the result `none`.
-/

namespace Minimega

/-! ## Go standard library: strings -/

/-- The loop of `strings.Split(s, sep)` for a one-byte separator, on the
characters of `s`: the text before the first separator, then the split of the
rest.  The result is never empty (`Split("", ",")` is `[""]`). -/
def splitChars (sep : Char) : List Char → List (List Char)
  | [] => [[]]
  | c :: cs =>
    if c = sep then [] :: splitChars sep cs
    else
      match splitChars sep cs with
      | [] => [[c]]
      | f :: fs => (c :: f) :: fs

/-- Go `strings.Split(s, sep)` for a one-byte separator `sep`. -/
def Split (s : String) (sep : Char) : List String :=
  (splitChars sep s.data).map String.mk

/-- Go `unicode.ToLower(r)`: on ASCII, `A`..`Z` move to `a`..`z` and every
other rune stays; above ASCII the Unicode case tables decide, which are the
parameter `tbl`. -/
def unicodeToLower (tbl : Char → Char) (r : Char) : Char :=
  if r.toNat < 128 then
    if 65 ≤ r.toNat ∧ r.toNat ≤ 90 then Char.ofNat (r.toNat + 32) else r
  else tbl r

/-- Go `strings.ToLower(s)`: every rune mapped by `unicode.ToLower` (the
ASCII fast path of the library computes the same string). -/
def ToLower (tbl : Char → Char) (s : String) : String :=
  String.mk (s.data.map (unicodeToLower tbl))

/-- UTF-8 encoding of one character, as the list of its bytes. -/
def utf8Char (c : Char) : List Nat :=
  let n := c.toNat
  if n < 0x80 then [n]
  else if n < 0x800 then [0xC0 + n / 64, 0x80 + n % 64]
  else if n < 0x10000 then [0xE0 + n / 4096, 0x80 + n / 64 % 64, 0x80 + n % 64]
  else [0xF0 + n / 262144, 0x80 + n / 4096 % 64, 0x80 + n / 64 % 64, 0x80 + n % 64]

/-- The bytes of a Go string: `len(s)` is `(goBytes s).length` and `s[i]` is
the `i`-th element. -/
def goBytes (s : String) : List Nat :=
  (s.data.map utf8Char).flatten

/-! ## Go standard library: net.ParseMAC -/

/-- The constant `big` of package `net` (`0xFFFFFF`). -/
def big : Nat := 0xFFFFFF

/-- Value of one hexadecimal digit byte, the three `if` branches of `xtoi`. -/
def hexVal (c : Nat) : Option Nat :=
  if 48 ≤ c ∧ c ≤ 57 then some (c - 48)
  else if 97 ≤ c ∧ c ≤ 102 then some (c - 97 + 10)
  else if 65 ≤ c ∧ c ≤ 70 then some (c - 65 + 10)
  else none

/-- The loop of `net.xtoi`: `s` is what is left to read, `n` the number so far
and `i` the count of characters consumed.  Returns `(n, i, ok)`. -/
def xtoiLoop : List Nat → Nat → Nat → Nat × Nat × Bool
  | [], n, i => if i = 0 then (0, i, false) else (n, i, true)
  | c :: cs, n, i =>
    match hexVal c with
    | none => if i = 0 then (0, i, false) else (n, i, true)
    | some d =>
      if n * 16 + d ≥ big then (0, i, false)
      else xtoiLoop cs (n * 16 + d) (i + 1)

/-- Go `net.xtoi(s)`: hexadecimal to integer; number, characters consumed,
success. -/
def xtoi (s : List Nat) : Nat × Nat × Bool := xtoiLoop s 0 0

/-- Go `net.xtoi2(s, e)`: the next two hex digits of `s` as a byte; when `s`
has more than two bytes the third must be `e`.  (`s[:2]` is `s.take 2`; every
call made by `ParseMAC` passes at least two bytes.) -/
def xtoi2 (s : List Nat) (e : Nat) : Nat × Bool :=
  if s.length > 2 ∧ s.get? 2 ≠ some e then (0, false)
  else
    match xtoi (s.take 2) with
    | (n, ei, ok) => (n % 256, ok && (ei == 2))

/-- The loop of the `:`/`-` form of `ParseMAC`: `n` octets remain and `s` is
`s[x:]`; each round reads one octet followed by the separator `e`. -/
def macOctets (e : Nat) : Nat → List Nat → Option (List Nat)
  | 0, _ => some []
  | n + 1, s =>
    match xtoi2 s e with
    | (b, true) => (macOctets e n (s.drop 3)).map (fun hw => b :: hw)
    | (_, false) => none

/-- The loop of the dotted form of `ParseMAC`: `k` groups of four hex digits
remain and `s` is `s[x:]`; each round reads two octets followed by `e`. -/
def macDotted (e : Nat) : Nat → List Nat → Option (List Nat)
  | 0, _ => some []
  | k + 1, s =>
    match xtoi2 (s.take 2) 0 with
    | (b0, true) =>
      match xtoi2 (s.drop 2) e with
      | (b1, true) => (macDotted e k (s.drop 5)).map (fun hw => b0 :: b1 :: hw)
      | (_, false) => none
    | (_, false) => none

/-- Go `net.ParseMAC(s)` on the bytes of `s`: the hardware address, or `none`
for the error `invalid MAC address`.  Bytes 58, 45 and 46 are `:`, `-`, `.`.
The package `net` is not part of the sources; this is the function as the
releases of Go of the time of misc.go have it, which accept the nine forms of
its documentation and nothing else.  A later release may accept further forms
(an address written without separators, say), so what is claimed of `isMac`
below is claimed as sufficient for acceptance, never as necessary. -/
def ParseMAC (s : List Nat) : Option (List Nat) :=
  if s.length < 14 then none
  else if s.get? 2 = some 58 ∨ s.get? 2 = some 45 then
    if (s.length + 1) % 3 ≠ 0 then none
    else
      let n := (s.length + 1) / 3
      if n ≠ 6 ∧ n ≠ 8 ∧ n ≠ 20 then none
      else macOctets (s.getD 2 0) n s
  else if s.get? 4 = some 46 then
    if (s.length + 1) % 5 ≠ 0 then none
    else
      let n := 2 * (s.length + 1) / 5
      if n ≠ 6 ∧ n ≠ 8 ∧ n ≠ 20 then none
      else macDotted (s.getD 4 0) (n / 2) s
  else none

/-- Source `isMac` (misc.go:126): `net.ParseMAC` returns no error. -/
def isMac (mac : String) : Bool :=
  (ParseMAC (goBytes mac)).isSome

/-! ## Data model -/

/-- Go `error` values that reach this code: the sentinel
`vlans.ErrUnallocated`, which `lookupVLAN` compares against, and errors built
by `errors.New(msg)` (here or by a collaborator). -/
inductive GoError where
  | ErrUnallocated
  | New (msg : String)
  deriving DecidableEq, Repr

/-- The record `NetConfig`, with the fields this code reads or writes: the
four set by `processVMNet` and `Raw`, read by `cliVMConfig`
(vmconfig_cli.go:202).  The type is declared outside the given sources. -/
structure NetConfig where
  VLAN : Int
  Bridge : String
  MAC : String
  Driver : String
  Raw : String
  deriving DecidableEq, Repr

/-- The Go zero value `NetConfig{}`. -/
def NetConfig.zero : NetConfig :=
  { VLAN := 0, Bridge := "", MAC := "", Driver := "", Raw := "" }

/-- The command built by
`minicli.MustCompilef("namespace %v vlans add %q %v", namespace, alias, vlan)`
followed by `SetRecord` and `SetSource`: the three arguments of the template
and the two settings. -/
structure Command where
  namespace_ : String
  alias_ : String
  vlan : Int
  record : Bool
  source : String
  deriving DecidableEq, Repr

/-- One response of a peer, as read from the channel returned by
`meshageSend`: the fields `Host` and `Error`. -/
structure Response where
  Host : String
  Error : String
  deriving DecidableEq, Repr

/-- External calls made by `lookupVLAN`, recorded in the order they happen. -/
inductive Event where
  | ParseVLAN (namespace_ alias_ : String)
  | Allocate (namespace_ alias_ : String)
  | WriteFile (fpath data : String)
  | meshageSend (cmd : Command)
  | goReadResponses
  deriving DecidableEq, Repr

/-- Modelled from the spec: the collaborators and configuration constants that
`processVMNet` and `lookupVLAN` use and the given sources do not define, or
define on top of code that is not given.  `ParseVLAN` and `Allocate` are the
methods of the external VLAN allocator `allocatedVLANs` over its state `σ`
(section 6: `parseVLAN(namespace, alias) -> (id, notFoundSentinel | error | ok)`,
a read; `allocate(namespace, alias) -> (id, created bool, error)`, which may
change the table).  `isNetworkDriver` is the driver whitelist, `DefaultBridge`
and `VM_NET_DRIVER_DEFAULT` the configured defaults, `lowerTable` the Unicode
case tables used by `strings.ToLower` above ASCII, and `vlansPath` the value
of `filepath.Join(*f_base, "vlans")`.  `vlanInfo` stands for the text returned
by `vlanInfo()` (misc.go:434-450): the empty string for an empty table, else
the header `Alias VLAN` and one row for every alias, aligned by
`text/tabwriter`, computed from `allocatedVLANs.Tabular("")`.  Neither
`Tabular` nor the tabwriter is given, so the text is a function of the
allocator state here; it is the data of the one write of `lookupVLAN`, and
everything proved holds for every such function. -/
structure Env (σ : Type) where
  DefaultBridge : String
  VM_NET_DRIVER_DEFAULT : String
  isNetworkDriver : String → Bool
  lowerTable : Char → Char
  ParseVLAN : σ → String → String → Int × Option GoError
  Allocate : σ → String → String → (Int × Bool × Option GoError) × σ
  vlanInfo : σ → String
  vlansPath : String

/-- What the outside world answers during one call of `lookupVLAN`: the error
of `ioutil.WriteFile` inside `mustWrite`, the error of `meshageSend`, and the
batches of responses that the returned channel yields until it is closed. -/
structure Outside where
  writeErr : Option GoError
  sendErr : Option GoError
  respChan : List (List Response)

/-- The state the code runs in: the allocator `allocatedVLANs` and the
external calls made so far, oldest first. -/
structure World (σ : Type) where
  alloc : σ
  trace : List Event
  deriving DecidableEq

/-- Appends one external call to the trace. -/
def World.emit {σ : Type} (w : World σ) (e : Event) : World σ :=
  { w with trace := w.trace ++ [e] }

/-- How a call ends: it returns a value, or `log.Fatal` ended the process. -/
inductive Exec (α : Type) where
  | ret (a : α)
  | fatal
  deriving DecidableEq, Repr

/-! ## misc.go -/

/-- Source `mustWrite` (misc.go:267): writes the file; if `ioutil.WriteFile`
returns an error, `log.Fatal` ends the process. -/
def mustWrite {σ : Type} (o : Outside) (fpath data : String) (w : World σ) :
    Exec Unit × World σ :=
  match o.writeErr with
  | some _ => (Exec.fatal, w.emit (Event.WriteFile fpath data))
  | none => (Exec.ret (), w.emit (Event.WriteFile fpath data))

/-- The body of the goroutine started by `lookupVLAN` (misc.go:414-422): the
`log.Error` lines it prints, one for every response whose `Error` is not
empty, as (alias, vlan, host, error).  Nothing waits for it and it returns
nothing to `lookupVLAN`. -/
def readResponses (alias_ : String) (vlan : Int) (respChan : List (List Response)) :
    List (String × Int × String × String) :=
  (respChan.flatten.filter (fun resp => resp.Error ≠ "")).map
    (fun resp => (alias_, vlan, resp.Host, resp.Error))

/-- Source `lookupVLAN` (misc.go:380): the returned pair `(int, error)` and
the world after the call. -/
def lookupVLAN {σ : Type} (E : Env σ) (o : Outside) (namespace_ alias_ : String) (w : World σ) :
    Exec (Int × Option GoError) × World σ :=
  if alias_ = "" then
    (Exec.ret (0, some (GoError.New "VLAN must be non-empty string")), w)
  else
    let w1 := w.emit (Event.ParseVLAN namespace_ alias_)
    let p := E.ParseVLAN w.alloc namespace_ alias_
    if p.2 ≠ some GoError.ErrUnallocated then
      -- nil or other error
      (Exec.ret (p.1, p.2), w1)
    else
      let a := E.Allocate w.alloc namespace_ alias_
      let vlan := a.1.1
      let created := a.1.2.1
      let w2 : World σ := { alloc := a.2, trace := w1.trace ++ [Event.Allocate namespace_ alias_] }
      match a.1.2.2 with
      | some err => (Exec.ret (0, some err), w2)
      | none =>
        if created then
          match mustWrite o E.vlansPath (E.vlanInfo w2.alloc) w2 with
          | (Exec.fatal, w3) => (Exec.fatal, w3)
          | (Exec.ret _, w3) =>
            let cmd : Command :=
              { namespace_ := namespace_, alias_ := alias_, vlan := vlan, record := false, source := namespace_ }
            let w4 := w3.emit (Event.meshageSend cmd)
            match o.sendErr with
            | some _ => (Exec.ret (vlan, none), w4)
            | none => (Exec.ret (vlan, none), w4.emit Event.goReadResponses)
        else (Exec.ret (vlan, none), w2)

/-- The `switch len(f)` of `processVMNet` (misc.go:310-340): the values of
`(b, v, m, d)` after it, or `none` when the `default` branch returns. -/
def netFields {σ : Type} (E : Env σ) : List String → Option (String × String × String × String)
  | [f0] => some ("", f0, "", "")
  | [f0, f1] =>
    if isMac f1 then some ("", f0, f1, "")
    else if E.isNetworkDriver f1 then some ("", f0, "", f1)
    else some (f0, f1, "", "")
  | [f0, f1, f2] =>
    if isMac f2 then some (f0, f1, f2, "")
    else if isMac f1 then some ("", f0, f1, f2)
    else some (f0, f1, "", f2)
  | [f0, f1, f2, f3] => some (f0, f1, f2, f3)
  | _ => none

/-- Source `processVMNet` (misc.go:306): the returned pair
`(NetConfig, error)` and the world after the call.  The composite literal of
the `return` sets `VLAN`, `Bridge`, `MAC` and `Driver`; `Raw` keeps its zero
value. -/
def processVMNet {σ : Type} (E : Env σ) (o : Outside) (namespace_ spec : String) (w : World σ) :
    Exec (NetConfig × Option GoError) × World σ :=
  match netFields E (Split spec ',') with
  | none => (Exec.ret (NetConfig.zero, some (GoError.New "malformed netspec")), w)
  | some (b, v, m, d) =>
    if d ≠ "" ∧ E.isNetworkDriver d = false then
      (Exec.ret (NetConfig.zero,
        some (GoError.New ("malformed netspec, invalid driver: " ++ d))), w)
    else
      match lookupVLAN E o namespace_ v w with
      | (Exec.fatal, w') => (Exec.fatal, w')
      | (Exec.ret (_, some err), w') => (Exec.ret (NetConfig.zero, some err), w')
      | (Exec.ret (vlan, none), w') =>
        if m ≠ "" ∧ isMac m = false then
          (Exec.ret (NetConfig.zero,
            some (GoError.New ("malformed netspec, invalid mac address: " ++ m))), w')
        else
          (Exec.ret
            ({ VLAN := vlan,
               Bridge := if b = "" then E.DefaultBridge else b,
               MAC := ToLower E.lowerTable m,
               Driver := if d = "" then E.VM_NET_DRIVER_DEFAULT else d,
               Raw := "" }, none), w')

/-! ## A concrete environment -/

/-- Modelled from the spec: a VLAN allocator as section 3 describes the alias
table, an append-only list of (namespace, alias, id) in which an alias of a
namespace has one id.  This is the lookup of one alias. -/
def tableFind (namespace_ alias_ : String) : List (String × String × Int) → Option Int
  | [] => none
  | (n, a, i) :: rest =>
    if n = namespace_ ∧ a = alias_ then some i else tableFind namespace_ alias_ rest

/-- Modelled from the spec: an environment with the table allocator
(`parseVLAN` answers a bound alias with its id and an unbound one with the
sentinel; `allocate` binds an unbound alias to the next id, counting from 101,
and reports `created`), the defaults of scenario A (`mega_bridge`, `e1000`)
and a whitelist of three drivers.  Its `vlanInfo` is a stand-in, one line for
every alias without header, VLAN column or alignment. -/
def tableEnv : Env (List (String × String × Int)) where
  DefaultBridge := "mega_bridge"
  VM_NET_DRIVER_DEFAULT := "e1000"
  isNetworkDriver := fun d => d = "e1000" || d = "virtio-net-pci" || d = "i82559c"
  lowerTable := fun c => c
  ParseVLAN := fun s n a =>
    match tableFind n a s with
    | some i => (i, none)
    | none => (0, some GoError.ErrUnallocated)
  Allocate := fun s n a =>
    match tableFind n a s with
    | some i => ((i, false, none), s)
    | none => ((101 + s.length, true, none), s ++ [(n, a, 101 + (s.length : Int))])
  vlanInfo := fun s => String.join (s.map (fun r => r.2.1 ++ "\n"))
  vlansPath := "/tmp/minimega/vlans"

/-- An outside in which the file write and the mesh send succeed and no peer
answers. -/
def quiet : Outside :=
  { writeErr := none, sendErr := none, respChan := [] }

/-- The world at start: an empty alias table and no external call made. -/
def world0 : World (List (String × String × Int)) :=
  { alloc := [], trace := [] }

/-- The allocator keeps returning the same id for an alias once it is bound:
after `Allocate` has answered `i` without error, `ParseVLAN` in the state it
left answers `i` for that namespace and alias.  (A hit of `ParseVLAN` leaves
the state as it is, so it repeats by itself.) -/
def Env.keepsBindings {σ : Type} (E : Env σ) : Prop :=
  ∀ (s s' : σ) (n a : String) (i : Int) (c : Bool),
    E.Allocate s n a = ((i, c, none), s') → E.ParseVLAN s' n a = (i, none)

/-- The rule of the specification for three fields (section 4.1, row 3), as
`(bridge, vlan, mac, driver)` with `""` for a part the rule leaves out: if the
third field is a MAC then (bridge, vlan, mac); else if the second is a MAC
then (vlan, mac, driver); else (bridge, vlan, driver). -/
def specRuleThree (A B C : String) : String × String × String × String :=
  if isMac C then (A, B, C, "")
  else if isMac B then ("", A, B, C)
  else (A, B, "", C)

/-- An outside in which the write of the table fails. -/
def diskFull : Outside :=
  { writeErr := some (GoError.New "no space left on device"), sendErr := none, respChan := [] }

/-- An outside in which the write succeeds and the send to the mesh fails. -/
def meshDown : Outside :=
  { writeErr := none, sendErr := some (GoError.New "no route to mesh"), respChan := [] }

/-- An outside in which write and send succeed and one peer answers with an
error. -/
def peerError : Outside :=
  { writeErr := none, sendErr := none,
    respChan := [[{ Host := "node2", Error := "" }, { Host := "node3", Error := "vlan in use" }]] }

/-- The table environment with an allocator whose `ParseVLAN` fails on every
alias with the same error. -/
def brokenEnv : Env (List (String × String × Int)) :=
  { tableEnv with
    ParseVLAN := fun _ _ _ => (0, some (GoError.New "invalid VLAN (0 <= vlan < 4096)")) }

/-- The command that `lookupVLAN` broadcasts for a new binding. -/
def aliasCommand (namespace_ alias_ : String) (vlan : Int) : Command :=
  { namespace_ := namespace_, alias_ := alias_, vlan := vlan, record := false,
    source := namespace_ }

/-! ## Syntax of MAC addresses, as the specification words it -/

/-- A hexadecimal digit: `0`-`9`, `a`-`f` or `A`-`F`. -/
def isHexChar (c : Char) : Bool :=
  decide (('0' ≤ c ∧ c ≤ '9') ∨ ('a' ≤ c ∧ c ≤ 'f') ∨ ('A' ≤ c ∧ c ≤ 'F'))

/-- A lower-case hexadecimal digit: `0`-`9` or `a`-`f`. -/
def isLowerHexChar (c : Char) : Bool :=
  decide (('0' ≤ c ∧ c ≤ '9') ∨ ('a' ≤ c ∧ c ≤ 'f'))

/-- The list `s` is `n` groups (`n` at least one) of `k` elements each, every
element of a group satisfying `hex`, with the separator `sep` between two
groups and nothing else. -/
def groupsOf {α : Type} [DecidableEq α] (hex : α → Bool) (sep : α) (k : Nat) :
    Nat → List α → Bool
  | 0, _ => false
  | n + 1, s =>
    decide ((s.take k).length = k) && (s.take k).all hex &&
      (if n = 0 then decide (s.drop k = [])
       else decide (s.get? k = some sep) && groupsOf hex sep k n (s.drop (k + 1)))

/-- The forms of address that the documentation of `net.ParseMAC` lists: 6, 8
or 20 octets of two hex digits separated by colons, or separated by dashes, or
3, 4 or 10 groups of four hex digits separated by dots. -/
def macForms {α : Type} [DecidableEq α] (hex : α → Bool) (colon dash dot : α)
    (s : List α) : Bool :=
  groupsOf hex colon 2 6 s || groupsOf hex colon 2 8 s || groupsOf hex colon 2 20 s ||
  groupsOf hex dash 2 6 s || groupsOf hex dash 2 8 s || groupsOf hex dash 2 20 s ||
  groupsOf hex dot 4 3 s || groupsOf hex dot 4 4 s || groupsOf hex dot 4 10 s

/-- The wording of the specification for `isMac`: exactly six hexadecimal
octets separated by colons. -/
def sixColonOctets (s : String) : Bool :=
  groupsOf isHexChar ':' 2 6 s.data

/-- The wording of the specification for the MAC of a `NetConfig`: six
two-digit lower-case hexadecimal octets separated by colons. -/
def lowerHexColon (s : String) : Bool :=
  groupsOf isLowerHexChar ':' 2 6 s.data

/-- A byte that `net.xtoi` reads as a hexadecimal digit. -/
def isHexByte (b : Nat) : Bool := (hexVal b).isSome

/-! ## MAC utilities -/

/-- Go `(*rand.Rand).Intn(n)`: panics (`none`) when `n` is not positive, and
otherwise returns a number of `[0, n)`.  Which one is the outcome of the draw:
`raw` is any natural number and the result is `raw % n`, so every number of
`[0, n)` is a possible result. -/
def Intn (raw n : Nat) : Option Nat :=
  if n = 0 then none else some (raw % n)

/-- Go `fmt.Sprintf("%02x", v)` for a non-negative `v`: lower-case
hexadecimal, padded with zeros on the left to two characters. -/
def fmt02x (v : Nat) : List Char :=
  List.replicate (2 - (Nat.toDigits 16 v).length) '0' ++ Nat.toDigits 16 v

/-- The call `fmt.Sprintf("%02x:%02x:%02x:%02x:%02x:%02x", ...)` of
`randomMac` on its six arguments. -/
def sprintfMac (b0 b1 b2 b3 b4 b5 : Nat) : String :=
  String.mk
    (fmt02x b0 ++ ':' :: (fmt02x b1 ++ ':' :: (fmt02x b2 ++
      ':' :: (fmt02x b3 ++ ':' :: (fmt02x b4 ++ ':' :: fmt02x b5)))))

/-- Source `init` (misc.go:46): appends every key of `macs.ValidMACPrefixMap`
to `validMACPrefix`.  The argument is the list of the keys of the map, of type
`[3]byte`, in the order in which `range` visits them. -/
def init (ValidMACPrefixMap : List (Fin 256 × Fin 256 × Fin 256)) :
    List (Fin 256 × Fin 256 × Fin 256) :=
  ValidMACPrefixMap.foldl (fun validMACPrefix k => validMACPrefix ++ [k]) []

/-- Source `randomMac` (misc.go:115).  The four arguments `raw0` to `raw3` are
the outcomes of the four draws, in the order of the calls of `r.Intn`; the
result is `none` when the function panics (in `Intn`, or on an index out of
range). -/
def randomMac (validMACPrefix : List (Fin 256 × Fin 256 × Fin 256))
    (raw0 raw1 raw2 raw3 : Nat) : Option String :=
  match Intn raw0 validMACPrefix.length with
  | none => none
  | some i =>
    match validMACPrefix.get? i with
    | none => none
    | some pfx =>
      match Intn raw1 256, Intn raw2 256, Intn raw3 256 with
      | some a, some b, some c =>
        some (sprintfMac pfx.1.val pfx.2.1.val pfx.2.2.val a b c)
      | _, _, _ => none

/-- Source `allocatedMac` (misc.go:131): `net.ParseMAC` succeeds and the first
three bytes of the address are a key of `macs.ValidMACPrefixMap`.  (A parsed
address has six bytes or more, so `hw[0]`, `hw[1]`, `hw[2]` exist.) -/
def allocatedMac (ValidMACPrefixMap : List (Fin 256 × Fin 256 × Fin 256))
    (mac : String) : Bool :=
  match ParseMAC (goBytes mac) with
  | none => false
  | some hw =>
    ValidMACPrefixMap.any
      (fun k => decide (k.1.val = hw.getD 0 0 ∧ k.2.1.val = hw.getD 1 0 ∧ k.2.2.val = hw.getD 2 0))

/-! ## Go standard library: white space, fields, substrings -/

/-- Go `unicode.IsSpace(r)`: in Latin-1 the characters tab, line feed,
vertical tab, form feed, carriage return, space, U+0085 and U+00A0; above
Latin-1 the characters with the property White_Space. -/
def IsSpace (r : Char) : Bool :=
  if r.toNat ≤ 0xFF then
    decide (r.toNat = 0x09 ∨ r.toNat = 0x0A ∨ r.toNat = 0x0B ∨ r.toNat = 0x0C ∨
      r.toNat = 0x0D ∨ r.toNat = 0x20 ∨ r.toNat = 0x85 ∨ r.toNat = 0xA0)
  else
    decide (r.toNat = 0x1680 ∨ (0x2000 ≤ r.toNat ∧ r.toNat ≤ 0x200A) ∨ r.toNat = 0x2028 ∨
      r.toNat = 0x2029 ∨ r.toNat = 0x202F ∨ r.toNat = 0x205F ∨ r.toNat = 0x3000)

/-- A text made of words separated by single spaces: a word is a non-empty
run of characters that are neither white space nor a double quote. -/
inductive Words : List Char → Prop where
  | one (w : List Char) (hne : w ≠ []) (hw : ∀ c ∈ w, IsSpace c = false ∧ c ≠ '"') : Words w
  | more (w t : List Char) (hne : w ≠ []) (hw : ∀ c ∈ w, IsSpace c = false ∧ c ≠ '"')
      (ht : Words t) : Words (w ++ ' ' :: t)

theorem splitChars_ne_nil (sep : Char) (l : List Char) : splitChars sep l ≠ [] := by
  induction l with
  | nil => simp [splitChars]
  | cons c cs ih =>
    unfold splitChars
    split
    · simp
    · split <;> simp

theorem splitChars_of_not_mem (sep : Char) (l : List Char) (h : sep ∉ l) :
    splitChars sep l = [l] := by
  induction l with
  | nil => rfl
  | cons c cs ih =>
    have hc : c ≠ sep := fun e => h (by simp [e])
    have hcs : sep ∉ cs := fun e => h (by simp [e])
    simp [splitChars, hc, ih hcs]

theorem splitChars_append (sep : Char) (l r : List Char) (h : sep ∉ l) :
    splitChars sep (l ++ sep :: r) = l :: splitChars sep r := by
  induction l with
  | nil => simp [splitChars]
  | cons c cs ih =>
    have hc : c ≠ sep := fun e => h (by simp [e])
    have hcs : sep ∉ cs := fun e => h (by simp [e])
    simp [splitChars, hc, ih hcs]

theorem Split_one (V : String) (hV : ',' ∉ V.data) : Split V ',' = [V] := by
  simp [Split, splitChars_of_not_mem _ _ hV]

theorem Split_two (X Y : String) (hX : ',' ∉ X.data) (hY : ',' ∉ Y.data) :
    Split (X ++ "," ++ Y) ',' = [X, Y] := by
  have h : (X ++ "," ++ Y).data = X.data ++ ',' :: Y.data := by
    simp [String.data_append]
  simp [Split, h, splitChars_append _ _ _ hX, splitChars_of_not_mem _ _ hY]

theorem Split_three (A B C : String) (hA : ',' ∉ A.data) (hB : ',' ∉ B.data)
    (hC : ',' ∉ C.data) : Split (A ++ "," ++ B ++ "," ++ C) ',' = [A, B, C] := by
  have h : (A ++ "," ++ B ++ "," ++ C).data = A.data ++ ',' :: (B.data ++ ',' :: C.data) := by
    simp [String.data_append]
  simp [Split, h, splitChars_append _ _ _ hA, splitChars_append _ _ _ hB,
    splitChars_of_not_mem _ _ hC]

theorem Split_four (B V M D : String) (hB : ',' ∉ B.data) (hV : ',' ∉ V.data)
    (hM : ',' ∉ M.data) (hD : ',' ∉ D.data) :
    Split (B ++ "," ++ V ++ "," ++ M ++ "," ++ D) ',' = [B, V, M, D] := by
  have h : (B ++ "," ++ V ++ "," ++ M ++ "," ++ D).data
      = B.data ++ ',' :: (V.data ++ ',' :: (M.data ++ ',' :: D.data)) := by
    simp [String.data_append]
  simp [Split, h, splitChars_append _ _ _ hB, splitChars_append _ _ _ hV,
    splitChars_append _ _ _ hM, splitChars_of_not_mem _ _ hD]

/-! ## The resolver -/

/-- A call of `lookupVLAN` that returned the id `i` without error had a
non-empty alias and either found it bound to `i` (the table is untouched) or
had `Allocate` return `i` (the table is the one `Allocate` left). -/
theorem lookupVLAN_success_inv {σ : Type} (E : Env σ) (o : Outside) (ns a : String)
    (w w' : World σ) (i : Int)
    (h : lookupVLAN E o ns a w = (Exec.ret (i, none), w')) :
    a ≠ "" ∧ ((E.ParseVLAN w.alloc ns a = (i, none) ∧ w'.alloc = w.alloc) ∨
      (∃ c, E.Allocate w.alloc ns a = ((i, c, none), w'.alloc))) := by
  unfold lookupVLAN at h
  by_cases ha : a = ""
  · simp [ha] at h
  · refine ⟨ha, ?_⟩
    simp only [ha, if_false] at h
    by_cases hp : (E.ParseVLAN w.alloc ns a).2 = some GoError.ErrUnallocated
    · right
      simp only [hp, ne_eq, not_true_eq_false, if_false] at h
      rcases hal : E.Allocate w.alloc ns a with ⟨⟨vlan, created, err⟩, s'⟩
      simp only [hal] at h
      cases err with
      | some e => simp at h
      | none =>
        simp only [mustWrite, World.emit] at h
        cases created with
        | false =>
          simp at h
          obtain ⟨h1, h2⟩ := h
          subst h1 h2
          exact ⟨false, rfl⟩
        | true =>
          simp only [if_true] at h
          cases hw : o.writeErr with
          | some e => simp [hw] at h
          | none =>
            simp only [hw] at h
            cases hs : o.sendErr with
            | some e =>
              simp [hs] at h
              obtain ⟨h1, h2⟩ := h
              subst h1 h2
              exact ⟨true, rfl⟩
            | none =>
              simp [hs] at h
              obtain ⟨h1, h2⟩ := h
              subst h1 h2
              exact ⟨true, rfl⟩
    · left
      simp only [ne_eq, hp, not_false_eq_true, if_true] at h
      simp only [World.emit, Prod.mk.injEq, Exec.ret.injEq] at h
      obtain ⟨⟨h1, h2⟩, h3⟩ := h
      subst h3
      exact ⟨Prod.ext h1 h2, rfl⟩

/-- On an alias that `ParseVLAN` reports bound, `lookupVLAN` returns its id
and does nothing besides the call of `ParseVLAN`. -/
theorem lookupVLAN_bound {σ : Type} (E : Env σ) (o : Outside) (ns a : String)
    (w : World σ) (i : Int) (ha : a ≠ "")
    (hp : E.ParseVLAN w.alloc ns a = (i, none)) :
    lookupVLAN E o ns a w = (Exec.ret (i, none), w.emit (Event.ParseVLAN ns a)) := by
  unfold lookupVLAN
  simp [ha, hp]

/-- Over an allocator that keeps its bindings, an alias resolved once resolves
to the same id in the world the first call left, whatever the outside answers
the second time. -/
theorem lookupVLAN_again {σ : Type} (E : Env σ) (o o' : Outside) (ns a : String)
    (w : World σ) (i : Int) (hk : E.keepsBindings)
    (h : (lookupVLAN E o ns a w).1 = Exec.ret (i, none)) :
    lookupVLAN E o' ns a (lookupVLAN E o ns a w).2 =
      (Exec.ret (i, none), (lookupVLAN E o ns a w).2.emit (Event.ParseVLAN ns a)) := by
  rcases hq : lookupVLAN E o ns a w with ⟨r, w'⟩
  rw [hq] at h
  simp only at h
  subst h
  obtain ⟨ha, hcase⟩ := lookupVLAN_success_inv E o ns a w w' i hq
  apply lookupVLAN_bound E o' ns a w' i ha
  rcases hcase with ⟨hp, hw⟩ | ⟨c, hal⟩
  · rw [hw]
    exact hp
  · exact hk _ _ _ _ _ _ hal

/-- In the table allocator an alias appended to a table that did not hold it
is found with the id it was appended with. -/
theorem tableFind_append (n a : String) (k : Int) (s : List (String × String × Int))
    (h : tableFind n a s = none) : tableFind n a (s ++ [(n, a, k)]) = some k := by
  induction s with
  | nil => simp [tableFind]
  | cons x xs ih =>
    obtain ⟨n', a', j⟩ := x
    unfold tableFind at h
    by_cases hc : n' = n ∧ a' = a
    · simp [hc] at h
    · simp only [hc, if_false] at h
      simp only [List.cons_append, tableFind, hc, if_false]
      exact ih h

/-- The table allocator keeps its bindings. -/
theorem tableEnv_keepsBindings : tableEnv.keepsBindings := by
  intro s s' n a i c h
  simp only [tableEnv] at h ⊢
  cases hf : tableFind n a s with
  | some j =>
    simp only [hf, Prod.mk.injEq] at h
    obtain ⟨⟨h1, _, _⟩, h2⟩ := h
    subst h1 h2
    simp [hf]
  | none =>
    simp only [hf, Prod.mk.injEq] at h
    obtain ⟨⟨h1, _, _⟩, h2⟩ := h
    subst h1 h2
    simp [tableFind_append n a _ s hf]

/-! ## Lemmas on `processVMNet` -/

/-- After the switch has bound `(b, v, m, d)` with an acceptable driver and the
alias `v` resolves to `i`, a MAC that is empty or valid gives the record. -/
theorem processVMNet_ok {σ : Type} (E : Env σ) (o : Outside) (ns spec : String) (w : World σ)
    (b v m d : String) (i : Int)
    (hf : netFields E (Split spec ',') = some (b, v, m, d))
    (hd : d = "" ∨ E.isNetworkDriver d = true)
    (hl : (lookupVLAN E o ns v w).1 = Exec.ret (i, none))
    (hm : m = "" ∨ isMac m = true) :
    processVMNet E o ns spec w =
      (Exec.ret
        ({ VLAN := i,
           Bridge := if b = "" then E.DefaultBridge else b,
           MAC := ToLower E.lowerTable m,
           Driver := if d = "" then E.VM_NET_DRIVER_DEFAULT else d,
           Raw := "" }, none), (lookupVLAN E o ns v w).2) := by
  have hd' : ¬ (d ≠ "" ∧ E.isNetworkDriver d = false) := by
    rcases hd with h | h <;> simp [h]
  have hm' : ¬ (m ≠ "" ∧ isMac m = false) := by
    rcases hm with h | h <;> simp [h]
  rcases hq : lookupVLAN E o ns v w with ⟨r, w'⟩
  rw [hq] at hl
  simp only at hl
  subst hl
  simp only [processVMNet, hf, hd', hq, hm', if_false]

/-- After the switch has bound `(b, v, m, d)` with an acceptable driver, an
alias that does not resolve ends the call with the resolver's error. -/
theorem processVMNet_lookup_err {σ : Type} (E : Env σ) (o : Outside) (ns spec : String)
    (w : World σ) (b v m d : String) (i : Int) (err : GoError)
    (hf : netFields E (Split spec ',') = some (b, v, m, d))
    (hd : d = "" ∨ E.isNetworkDriver d = true)
    (hl : (lookupVLAN E o ns v w).1 = Exec.ret (i, some err)) :
    processVMNet E o ns spec w =
      (Exec.ret (NetConfig.zero, some err), (lookupVLAN E o ns v w).2) := by
  have hd' : ¬ (d ≠ "" ∧ E.isNetworkDriver d = false) := by
    rcases hd with h | h <;> simp [h]
  rcases hq : lookupVLAN E o ns v w with ⟨r, w'⟩
  rw [hq] at hl
  simp only at hl
  subst hl
  simp only [processVMNet, hf, hd', hq, if_false]

/-- After the switch has bound `(b, v, m, d)` with an acceptable driver, a
resolver ended by `log.Fatal` ends the call the same way. -/
theorem processVMNet_lookup_fatal {σ : Type} (E : Env σ) (o : Outside) (ns spec : String)
    (w : World σ) (b v m d : String)
    (hf : netFields E (Split spec ',') = some (b, v, m, d))
    (hd : d = "" ∨ E.isNetworkDriver d = true)
    (hl : (lookupVLAN E o ns v w).1 = Exec.fatal) :
    processVMNet E o ns spec w = (Exec.fatal, (lookupVLAN E o ns v w).2) := by
  have hd' : ¬ (d ≠ "" ∧ E.isNetworkDriver d = false) := by
    rcases hd with h | h <;> simp [h]
  rcases hq : lookupVLAN E o ns v w with ⟨r, w'⟩
  rw [hq] at hl
  simp only at hl
  subst hl
  simp only [processVMNet, hf, hd', hq, if_false]

/-- A successful `processVMNet` resolved the alias the switch chose. -/
theorem processVMNet_success_inv {σ : Type} (E : Env σ) (o : Outside) (ns spec : String)
    (w : World σ) (cfg : NetConfig)
    (h : (processVMNet E o ns spec w).1 = Exec.ret (cfg, none)) :
    ∃ b v m d i, netFields E (Split spec ',') = some (b, v, m, d) ∧
      (d = "" ∨ E.isNetworkDriver d = true) ∧
      (lookupVLAN E o ns v w).1 = Exec.ret (i, none) ∧
      (m = "" ∨ isMac m = true) := by
  unfold processVMNet at h
  cases hf : netFields E (Split spec ',') with
  | none => simp [hf] at h
  | some q =>
    obtain ⟨b, v, m, d⟩ := q
    simp only [hf] at h
    by_cases hd : d ≠ "" ∧ E.isNetworkDriver d = false
    · simp [hd] at h
    · simp only [hd, if_false] at h
      rcases hq : lookupVLAN E o ns v w with ⟨r, w'⟩
      rw [hq] at h
      cases r with
      | fatal => simp at h
      | ret a =>
        obtain ⟨i, e⟩ := a
        cases e with
        | some err => simp at h
        | none =>
          by_cases hm : m ≠ "" ∧ isMac m = false
          · simp [hm] at h
          · refine ⟨b, v, m, d, i, rfl, ?_, ?_, ?_⟩
            · by_cases h0 : d = ""
              · exact Or.inl h0
              · right
                cases hdr : E.isNetworkDriver d
                · exact absurd ⟨h0, hdr⟩ hd
                · rfl
            · rw [hq]
            · by_cases h0 : m = ""
              · exact Or.inl h0
              · right
                cases hmc : isMac m
                · exact absurd ⟨h0, hmc⟩ hm
                · rfl

/-- The switch takes its `default` branch on five or more fields. -/
theorem netFields_five {σ : Type} (E : Env σ) (f : List String) (h : 5 ≤ f.length) :
    netFields E f = none := by
  match f, h with
  | _ :: _ :: _ :: _ :: _ :: _, _ => rfl

/-- The check of the driver comes first: a driver field that is not empty and
not known ends the call before anything else is done. -/
theorem processVMNet_bad_driver {σ : Type} (E : Env σ) (o : Outside) (ns spec : String)
    (w : World σ) (b v m d : String)
    (hf : netFields E (Split spec ',') = some (b, v, m, d))
    (hne : d ≠ "") (hd : E.isNetworkDriver d = false) :
    processVMNet E o ns spec w =
      (Exec.ret (NetConfig.zero,
        some (GoError.New ("malformed netspec, invalid driver: " ++ d))), w) := by
  have hd' : d ≠ "" ∧ E.isNetworkDriver d = false := ⟨hne, hd⟩
  simp only [processVMNet, hf]
  rw [if_pos hd']

/-- The check of the MAC comes last: with an acceptable driver and a resolved
alias, a MAC field that is not empty and not valid ends the call in the world
the resolver left. -/
theorem processVMNet_bad_mac {σ : Type} (E : Env σ) (o : Outside) (ns spec : String)
    (w : World σ) (b v m d : String) (i : Int)
    (hf : netFields E (Split spec ',') = some (b, v, m, d))
    (hd : d = "" ∨ E.isNetworkDriver d = true)
    (hl : (lookupVLAN E o ns v w).1 = Exec.ret (i, none))
    (hne : m ≠ "") (hm : isMac m = false) :
    processVMNet E o ns spec w =
      (Exec.ret (NetConfig.zero,
        some (GoError.New ("malformed netspec, invalid mac address: " ++ m))),
        (lookupVLAN E o ns v w).2) := by
  have hd' : ¬ (d ≠ "" ∧ E.isNetworkDriver d = false) := by
    rcases hd with h | h <;> simp [h]
  have hm' : m ≠ "" ∧ isMac m = false := ⟨hne, hm⟩
  rcases hq : lookupVLAN E o ns v w with ⟨r, w'⟩
  rw [hq] at hl
  simp only at hl
  subst hl
  simp only [processVMNet, hf, hd', hq, if_false]
  rw [if_pos hm']

/-! ## Two-field specifications -/

/-- C1: for a two-field spec `X,Y` (neither field holds a comma) whose `Y` is
neither a MAC nor a known driver, `processVMNet` takes `X` as the bridge and
`Y` as the VLAN alias.  It succeeds exactly when `lookupVLAN` on `Y` succeeds,
and then returns the bridge `X` (the default bridge for an empty `X`), the id
`lookupVLAN` gave, an empty MAC and the default driver. -/
theorem processVMNet_bridge_vlan {σ : Type} (E : Env σ) (o : Outside) (ns X Y : String)
    (w : World σ) (hX : ',' ∉ X.data) (hY : ',' ∉ Y.data)
    (hmac : isMac Y = false) (hdrv : E.isNetworkDriver Y = false) :
    (∀ i, (lookupVLAN E o ns Y w).1 = Exec.ret (i, none) →
      processVMNet E o ns (X ++ "," ++ Y) w =
        (Exec.ret
          ({ VLAN := i,
             Bridge := if X = "" then E.DefaultBridge else X,
             MAC := "",
             Driver := E.VM_NET_DRIVER_DEFAULT,
             Raw := "" }, none), (lookupVLAN E o ns Y w).2)) ∧
    (∀ cfg, (processVMNet E o ns (X ++ "," ++ Y) w).1 = Exec.ret (cfg, none) →
      ∃ i, (lookupVLAN E o ns Y w).1 = Exec.ret (i, none)) := by
  have hf : netFields E (Split (X ++ "," ++ Y) ',') = some (X, Y, "", "") := by
    simp [Split_two X Y hX hY, netFields, hmac, hdrv]
  constructor
  · intro i hl
    exact processVMNet_ok E o ns _ w X Y "" "" i hf (Or.inl rfl) hl (Or.inl rfl)
  · intro cfg h
    obtain ⟨b, v, m, d, i, hf', _, hl, _⟩ := processVMNet_success_inv E o ns _ w cfg h
    rw [hf] at hf'
    simp only [Option.some.injEq, Prod.mk.injEq] at hf'
    obtain ⟨_, hv, _, _⟩ := hf'
    exact ⟨i, by rw [hv]; exact hl⟩

/-- C1 at scenario E: `100,bogus-driver` gives bridge `100` and resolves the
alias `bogus-driver` (to the fresh id 101), with no invalid-driver error. -/
theorem processVMNet_bridge_vlan_witness :
    isMac "bogus-driver" = false ∧ tableEnv.isNetworkDriver "bogus-driver" = false ∧
    (lookupVLAN tableEnv quiet "ns1" "bogus-driver" world0).1 = Exec.ret (101, none) ∧
    processVMNet tableEnv quiet "ns1" "100,bogus-driver" world0 =
      (Exec.ret
        ({ VLAN := 101, Bridge := "100", MAC := "", Driver := "e1000", Raw := "" }, none),
        (lookupVLAN tableEnv quiet "ns1" "bogus-driver" world0).2) :=
  ⟨by decide, by decide, by decide,
    (processVMNet_bridge_vlan tableEnv quiet "ns1" "100" "bogus-driver" world0
      (by decide) (by decide) (by decide) (by decide)).1 101 (by decide)⟩

/-- C2: for a two-field spec `X,Y` whose `Y` is a valid MAC and whose `X`
resolves, `processVMNet` succeeds with the id of `X`, the MAC `Y` in lower
case, the default bridge and the default driver. -/
theorem processVMNet_vlan_mac {σ : Type} (E : Env σ) (o : Outside) (ns X Y : String)
    (w : World σ) (i : Int) (hX : ',' ∉ X.data) (hY : ',' ∉ Y.data)
    (hmac : isMac Y = true)
    (hl : (lookupVLAN E o ns X w).1 = Exec.ret (i, none)) :
    processVMNet E o ns (X ++ "," ++ Y) w =
      (Exec.ret
        ({ VLAN := i,
           Bridge := E.DefaultBridge,
           MAC := ToLower E.lowerTable Y,
           Driver := E.VM_NET_DRIVER_DEFAULT,
           Raw := "" }, none), (lookupVLAN E o ns X w).2) := by
  have hf : netFields E (Split (X ++ "," ++ Y) ',') = some ("", X, Y, "") := by
    simp [Split_two X Y hX hY, netFields, hmac]
  exact processVMNet_ok E o ns _ w "" X Y "" i hf (Or.inl rfl) hl (Or.inr hmac)

/-- C2 at scenario B, with an upper-case MAC: `100,00:1A:2B:3C:4D:5E`. -/
theorem processVMNet_vlan_mac_witness :
    isMac "00:1A:2B:3C:4D:5E" = true ∧
    (lookupVLAN tableEnv quiet "ns1" "100" world0).1 = Exec.ret (101, none) ∧
    processVMNet tableEnv quiet "ns1" "100,00:1A:2B:3C:4D:5E" world0 =
      (Exec.ret
        ({ VLAN := 101, Bridge := "mega_bridge", MAC := "00:1a:2b:3c:4d:5e",
           Driver := "e1000", Raw := "" }, none),
        (lookupVLAN tableEnv quiet "ns1" "100" world0).2) :=
  ⟨by decide, by decide,
    processVMNet_vlan_mac tableEnv quiet "ns1" "100" "00:1A:2B:3C:4D:5E" world0 101
      (by decide) (by decide) (by decide) (by decide)⟩

/-- C3: for a two-field spec `X,Y` whose `Y` is a known driver name (a
non-empty string of the whitelist) and not a MAC, and whose `X` resolves,
`processVMNet` succeeds with the id of `X`, the driver `Y`, the default bridge
and an empty MAC. -/
theorem processVMNet_vlan_driver {σ : Type} (E : Env σ) (o : Outside) (ns X Y : String)
    (w : World σ) (i : Int) (hX : ',' ∉ X.data) (hY : ',' ∉ Y.data)
    (hmac : isMac Y = false) (hdrv : E.isNetworkDriver Y = true) (hne : Y ≠ "")
    (hl : (lookupVLAN E o ns X w).1 = Exec.ret (i, none)) :
    processVMNet E o ns (X ++ "," ++ Y) w =
      (Exec.ret
        ({ VLAN := i,
           Bridge := E.DefaultBridge,
           MAC := "",
           Driver := Y,
           Raw := "" }, none), (lookupVLAN E o ns X w).2) := by
  have hf : netFields E (Split (X ++ "," ++ Y) ',') = some ("", X, "", Y) := by
    simp [Split_two X Y hX hY, netFields, hmac, hdrv]
  have h := processVMNet_ok E o ns _ w "" X "" Y i hf (Or.inr hdrv) hl (Or.inl rfl)
  simpa [hne, ToLower] using h

/-- C3 at the example of the help text: `100,i82559c`. -/
theorem processVMNet_vlan_driver_witness :
    isMac "i82559c" = false ∧ tableEnv.isNetworkDriver "i82559c" = true ∧
    (lookupVLAN tableEnv quiet "ns1" "100" world0).1 = Exec.ret (101, none) ∧
    processVMNet tableEnv quiet "ns1" "100,i82559c" world0 =
      (Exec.ret
        ({ VLAN := 101, Bridge := "mega_bridge", MAC := "", Driver := "i82559c",
           Raw := "" }, none),
        (lookupVLAN tableEnv quiet "ns1" "100" world0).2) :=
  ⟨by decide, by decide, by decide,
    processVMNet_vlan_driver tableEnv quiet "ns1" "100" "i82559c" world0 101
      (by decide) (by decide) (by decide) (by decide) (by decide) (by decide)⟩

/-! ## Three and four fields -/

/-- C4: for a three-field spec `A,B,C` the switch of `processVMNet` binds
(bridge, vlan, mac, driver) as the rule of the specification says
(`specRuleThree`), and whenever the field chosen as driver is empty or a known
driver and the field chosen as alias resolves, the call succeeds with those
bindings: the MAC in lower case, an empty bridge or driver replaced by its
default. -/
theorem processVMNet_three_fields {σ : Type} (E : Env σ) (o : Outside) (ns A B C : String)
    (w : World σ) (hA : ',' ∉ A.data) (hB : ',' ∉ B.data) (hC : ',' ∉ C.data) :
    netFields E (Split (A ++ "," ++ B ++ "," ++ C) ',') = some (specRuleThree A B C) ∧
    ∀ b v m d i, specRuleThree A B C = (b, v, m, d) →
      (d = "" ∨ E.isNetworkDriver d = true) →
      (lookupVLAN E o ns v w).1 = Exec.ret (i, none) →
      processVMNet E o ns (A ++ "," ++ B ++ "," ++ C) w =
        (Exec.ret
          ({ VLAN := i,
             Bridge := if b = "" then E.DefaultBridge else b,
             MAC := ToLower E.lowerTable m,
             Driver := if d = "" then E.VM_NET_DRIVER_DEFAULT else d,
             Raw := "" }, none), (lookupVLAN E o ns v w).2) := by
  have hf : netFields E (Split (A ++ "," ++ B ++ "," ++ C) ',') = some (specRuleThree A B C) := by
    rw [Split_three A B C hA hB hC]
    cases h2 : isMac C <;> cases h1 : isMac B <;> simp [netFields, specRuleThree, h1, h2]
  refine ⟨hf, ?_⟩
  intro b v m d i hq hd hl
  rw [hq] at hf
  have hm : m = "" ∨ isMac m = true := by
    unfold specRuleThree at hq
    cases h2 : isMac C
    · cases h1 : isMac B
      · simp [h2, h1] at hq
        exact Or.inl hq.2.2.1.symm
      · simp [h2, h1] at hq
        exact Or.inr (by rw [← hq.2.2.1]; exact h1)
    · simp [h2] at hq
      exact Or.inr (by rw [← hq.2.2.1]; exact h2)
  exact processVMNet_ok E o ns _ w b v m d i hf hd hl hm

/-- C4 on one spec for each branch of the rule: `bridge0,100,00:11:22:33:44:55`
(bridge, vlan, mac), `100,00:AA:22:33:44:55,i82559c` (vlan, mac, driver) and
`bridge0,100,` followed by `virtio-net-pci` (bridge, vlan, driver). -/
theorem processVMNet_three_fields_witness :
    processVMNet tableEnv quiet "ns1" "bridge0,100,00:11:22:33:44:55" world0 =
      (Exec.ret
        ({ VLAN := 101, Bridge := "bridge0", MAC := "00:11:22:33:44:55",
           Driver := "e1000", Raw := "" }, none),
        (lookupVLAN tableEnv quiet "ns1" "100" world0).2) ∧
    processVMNet tableEnv quiet "ns1" "100,00:AA:22:33:44:55,i82559c" world0 =
      (Exec.ret
        ({ VLAN := 101, Bridge := "mega_bridge", MAC := "00:aa:22:33:44:55",
           Driver := "i82559c", Raw := "" }, none),
        (lookupVLAN tableEnv quiet "ns1" "100" world0).2) ∧
    processVMNet tableEnv quiet "ns1" "bridge0,100,virtio-net-pci" world0 =
      (Exec.ret
        ({ VLAN := 101, Bridge := "bridge0", MAC := "",
           Driver := "virtio-net-pci", Raw := "" }, none),
        (lookupVLAN tableEnv quiet "ns1" "100" world0).2) :=
  ⟨(processVMNet_three_fields tableEnv quiet "ns1" "bridge0" "100" "00:11:22:33:44:55" world0
      (by decide) (by decide) (by decide)).2
      "bridge0" "100" "00:11:22:33:44:55" "" 101 (by decide) (by decide) (by decide),
   (processVMNet_three_fields tableEnv quiet "ns1" "100" "00:AA:22:33:44:55" "i82559c" world0
      (by decide) (by decide) (by decide)).2
      "" "100" "00:AA:22:33:44:55" "i82559c" 101 (by decide) (by decide) (by decide),
   (processVMNet_three_fields tableEnv quiet "ns1" "bridge0" "100" "virtio-net-pci" world0
      (by decide) (by decide) (by decide)).2
      "bridge0" "100" "" "virtio-net-pci" 101 (by decide) (by decide) (by decide)⟩

/-- C5: a four-field spec `B,V,M,D` is read in the order bridge, VLAN, MAC,
driver whatever the fields hold: with `B` non-empty, `D` a known driver name,
`M` a valid MAC and `V` resolving, the call returns bridge `B`, the id of `V`,
`M` in lower case and driver `D`. -/
theorem processVMNet_four_fields {σ : Type} (E : Env σ) (o : Outside) (ns B V M D : String)
    (w : World σ) (i : Int) (hB : ',' ∉ B.data) (hV : ',' ∉ V.data) (hM : ',' ∉ M.data)
    (hD : ',' ∉ D.data) (hbr : B ≠ "") (hdrv : E.isNetworkDriver D = true) (hne : D ≠ "")
    (hmac : isMac M = true)
    (hl : (lookupVLAN E o ns V w).1 = Exec.ret (i, none)) :
    netFields E (Split (B ++ "," ++ V ++ "," ++ M ++ "," ++ D) ',') = some (B, V, M, D) ∧
    processVMNet E o ns (B ++ "," ++ V ++ "," ++ M ++ "," ++ D) w =
      (Exec.ret
        ({ VLAN := i,
           Bridge := B,
           MAC := ToLower E.lowerTable M,
           Driver := D,
           Raw := "" }, none), (lookupVLAN E o ns V w).2) := by
  have hf : netFields E (Split (B ++ "," ++ V ++ "," ++ M ++ "," ++ D) ',')
      = some (B, V, M, D) := by
    rw [Split_four B V M D hB hV hM hD]
    rfl
  refine ⟨hf, ?_⟩
  have h := processVMNet_ok E o ns _ w B V M D i hf (Or.inr hdrv) hl (Or.inr hmac)
  simpa [hbr, hne] using h

/-- C5 at `br1,200,00:1B:22:33:44:55,virtio-net-pci`. -/
theorem processVMNet_four_fields_witness :
    isMac "00:1B:22:33:44:55" = true ∧ tableEnv.isNetworkDriver "virtio-net-pci" = true ∧
    (lookupVLAN tableEnv quiet "ns1" "200" world0).1 = Exec.ret (101, none) ∧
    processVMNet tableEnv quiet "ns1" "br1,200,00:1B:22:33:44:55,virtio-net-pci" world0 =
      (Exec.ret
        ({ VLAN := 101, Bridge := "br1", MAC := "00:1b:22:33:44:55",
           Driver := "virtio-net-pci", Raw := "" }, none),
        (lookupVLAN tableEnv quiet "ns1" "200" world0).2) :=
  ⟨by decide, by decide, by decide,
    (processVMNet_four_fields tableEnv quiet "ns1" "br1" "200" "00:1B:22:33:44:55"
      "virtio-net-pci" world0 101 (by decide) (by decide) (by decide) (by decide)
      (by decide) (by decide) (by decide) (by decide) (by decide)).2⟩

/-! ## One field, and five or more -/

/-- C6: for a spec `V` without a comma, if `lookupVLAN` on `V` succeeds then
`processVMNet` succeeds with exactly that id, the default bridge, the default
driver and an empty MAC; if `lookupVLAN` fails, `processVMNet` fails with the
same error and the zero record. -/
theorem processVMNet_one_field {σ : Type} (E : Env σ) (o : Outside) (ns V : String)
    (w : World σ) (hV : ',' ∉ V.data) :
    (∀ i, (lookupVLAN E o ns V w).1 = Exec.ret (i, none) →
      processVMNet E o ns V w =
        (Exec.ret
          ({ VLAN := i,
             Bridge := E.DefaultBridge,
             MAC := "",
             Driver := E.VM_NET_DRIVER_DEFAULT,
             Raw := "" }, none), (lookupVLAN E o ns V w).2)) ∧
    (∀ i err, (lookupVLAN E o ns V w).1 = Exec.ret (i, some err) →
      processVMNet E o ns V w =
        (Exec.ret (NetConfig.zero, some err), (lookupVLAN E o ns V w).2)) := by
  have hf : netFields E (Split V ',') = some ("", V, "", "") := by
    rw [Split_one V hV]
    rfl
  constructor
  · intro i hl
    exact processVMNet_ok E o ns V w "" V "" "" i hf (Or.inl rfl) hl (Or.inl rfl)
  · intro i err hl
    exact processVMNet_lookup_err E o ns V w "" V "" "" i err hf (Or.inl rfl) hl

/-- C6 at scenario A (spec `5`, alias not bound before: the new id 101 with
`mega_bridge` and `e1000`) and at the empty spec, which fails with the error
of `lookupVLAN`. -/
theorem processVMNet_one_field_witness :
    (processVMNet tableEnv quiet "ns1" "5" world0 =
      (Exec.ret
        ({ VLAN := 101, Bridge := "mega_bridge", MAC := "", Driver := "e1000",
           Raw := "" }, none),
        (lookupVLAN tableEnv quiet "ns1" "5" world0).2)) ∧
    (processVMNet tableEnv quiet "ns1" "" world0 =
      (Exec.ret (NetConfig.zero, some (GoError.New "VLAN must be non-empty string")),
        (lookupVLAN tableEnv quiet "ns1" "" world0).2)) :=
  ⟨(processVMNet_one_field tableEnv quiet "ns1" "5" world0 (by decide)).1 101 (by decide),
   (processVMNet_one_field tableEnv quiet "ns1" "" world0 (by decide)).2 0
      (GoError.New "VLAN must be non-empty string") (by decide)⟩

/-- C7: splitting never yields zero fields, and a spec that splits into five
or more fields fails with the error `malformed netspec`, returns the zero
record and leaves the world as it was: the resolver is not called, so the
alias table and the trace of external calls are unchanged. -/
theorem processVMNet_malformed {σ : Type} (E : Env σ) (o : Outside) (ns spec : String)
    (w : World σ) :
    1 ≤ (Split spec ',').length ∧
    (5 ≤ (Split spec ',').length →
      processVMNet E o ns spec w =
        (Exec.ret (NetConfig.zero, some (GoError.New "malformed netspec")), w)) := by
  constructor
  · have h := splitChars_ne_nil ',' spec.data
    unfold Split
    rw [List.length_map]
    exact List.length_pos.mpr h
  · intro h
    simp only [processVMNet, netFields_five E _ h]

/-- C7 at scenario D: `1,2,3,4,5`. -/
theorem processVMNet_malformed_witness :
    5 ≤ (Split "1,2,3,4,5" ',').length ∧
    processVMNet tableEnv quiet "ns1" "1,2,3,4,5" world0 =
      (Exec.ret (NetConfig.zero, some (GoError.New "malformed netspec")), world0) :=
  ⟨by decide, (processVMNet_malformed tableEnv quiet "ns1" "1,2,3,4,5" world0).2 (by decide)⟩

/-! ## Order of validation -/

/-- C8: `processVMNet` checks the driver, then the alias, then the MAC, and
the first check that fails decides the result.  (1) A driver field that is not
empty and not a known driver gives the invalid-driver error in the unchanged
world, whatever the alias and MAC fields hold: the resolver has not been
called.  (2) With an acceptable driver, an alias on which the resolver returns
an error gives that error, whatever the MAC field holds.  (3) For a four-field
spec with an acceptable driver and a resolved alias, a third field that is not
empty and not a MAC gives the invalid-MAC error, in the world the resolver
left. -/
theorem processVMNet_validation_order {σ : Type} (E : Env σ) (o : Outside) (ns : String)
    (w : World σ) :
    (∀ spec b v m d, netFields E (Split spec ',') = some (b, v, m, d) →
      d ≠ "" → E.isNetworkDriver d = false →
      processVMNet E o ns spec w =
        (Exec.ret (NetConfig.zero,
          some (GoError.New ("malformed netspec, invalid driver: " ++ d))), w)) ∧
    (∀ spec b v m d i err, netFields E (Split spec ',') = some (b, v, m, d) →
      (d = "" ∨ E.isNetworkDriver d = true) →
      (lookupVLAN E o ns v w).1 = Exec.ret (i, some err) →
      processVMNet E o ns spec w =
        (Exec.ret (NetConfig.zero, some err), (lookupVLAN E o ns v w).2)) ∧
    (∀ B V M D i, ',' ∉ B.data → ',' ∉ V.data → ',' ∉ M.data → ',' ∉ D.data →
      (D = "" ∨ E.isNetworkDriver D = true) →
      (lookupVLAN E o ns V w).1 = Exec.ret (i, none) →
      M ≠ "" → isMac M = false →
      processVMNet E o ns (B ++ "," ++ V ++ "," ++ M ++ "," ++ D) w =
        (Exec.ret (NetConfig.zero,
          some (GoError.New ("malformed netspec, invalid mac address: " ++ M))),
          (lookupVLAN E o ns V w).2)) := by
  refine ⟨?_, ?_, ?_⟩
  · intro spec b v m d hf hne hd
    exact processVMNet_bad_driver E o ns spec w b v m d hf hne hd
  · intro spec b v m d i err hf hd hl
    exact processVMNet_lookup_err E o ns spec w b v m d i err hf hd hl
  · intro B V M D i hB hV hM hD hd hl hne hm
    have hf : netFields E (Split (B ++ "," ++ V ++ "," ++ M ++ "," ++ D) ',')
        = some (B, V, M, D) := by
      rw [Split_four B V M D hB hV hM hD]
      rfl
    exact processVMNet_bad_mac E o ns _ w B V M D i hf hd hl hne hm

/-- C8 on three specs.  `br0,,zz,bogus`: bad driver, empty alias and bad MAC
give the driver error and the world is untouched.  `br0,,zz,e1000`: good
driver, empty alias and bad MAC give the resolver's error.
`br0,100,zz,e1000`: good driver, resolving alias and bad MAC give the MAC
error, and the alias `100` has been bound by then. -/
theorem processVMNet_validation_order_witness :
    processVMNet tableEnv quiet "ns1" "br0,,zz,bogus" world0 =
      (Exec.ret (NetConfig.zero,
        some (GoError.New "malformed netspec, invalid driver: bogus")), world0) ∧
    processVMNet tableEnv quiet "ns1" "br0,,zz,e1000" world0 =
      (Exec.ret (NetConfig.zero, some (GoError.New "VLAN must be non-empty string")),
        (lookupVLAN tableEnv quiet "ns1" "" world0).2) ∧
    processVMNet tableEnv quiet "ns1" "br0,100,zz,e1000" world0 =
      (Exec.ret (NetConfig.zero,
        some (GoError.New "malformed netspec, invalid mac address: zz")),
        (lookupVLAN tableEnv quiet "ns1" "100" world0).2) ∧
    (lookupVLAN tableEnv quiet "ns1" "100" world0).2.alloc = [("ns1", "100", 101)] :=
  ⟨(processVMNet_validation_order tableEnv quiet "ns1" world0).1
      "br0,,zz,bogus" "br0" "" "zz" "bogus" (by decide) (by decide) (by decide),
   (processVMNet_validation_order tableEnv quiet "ns1" world0).2.1
      "br0,,zz,e1000" "br0" "" "zz" "e1000" 0 (GoError.New "VLAN must be non-empty string")
      (by decide) (by decide) (by decide),
   (processVMNet_validation_order tableEnv quiet "ns1" world0).2.2
      "br0" "100" "zz" "e1000" 101 (by decide) (by decide) (by decide) (by decide)
      (by decide) (by decide) (by decide) (by decide),
   by decide⟩

/-! ## The raw spec -/

/-- C9, as the code has it: the record returned by `processVMNet` never holds
the spec.  Whatever the call returns, with or without error, the field `Raw`
is the empty string, the zero value that the composite literal leaves. -/
theorem processVMNet_raw_empty {σ : Type} (E : Env σ) (o : Outside) (ns spec : String)
    (w : World σ) (r : NetConfig) (e : Option GoError)
    (h : (processVMNet E o ns spec w).1 = Exec.ret (r, e)) : r.Raw = "" := by
  unfold processVMNet at h
  cases hf : netFields E (Split spec ',') with
  | none =>
    simp only [hf, Exec.ret.injEq, Prod.mk.injEq] at h
    rw [← h.1]
    rfl
  | some q =>
    obtain ⟨b, v, m, d⟩ := q
    simp only [hf] at h
    by_cases hd : d ≠ "" ∧ E.isNetworkDriver d = false
    · rw [if_pos hd] at h
      simp only [Exec.ret.injEq, Prod.mk.injEq] at h
      rw [← h.1]
      rfl
    · rw [if_neg hd] at h
      rcases hq : lookupVLAN E o ns v w with ⟨x, w'⟩
      rw [hq] at h
      cases x with
      | fatal => simp at h
      | ret p =>
        obtain ⟨i, err⟩ := p
        cases err with
        | some err =>
          simp only [Exec.ret.injEq, Prod.mk.injEq] at h
          rw [← h.1]
          rfl
        | none =>
          by_cases hm : m ≠ "" ∧ isMac m = false
          · simp only [if_pos hm, Exec.ret.injEq, Prod.mk.injEq] at h
            rw [← h.1]
            rfl
          · simp only [if_neg hm, Exec.ret.injEq, Prod.mk.injEq] at h
            rw [← h.1]

/-- C9 at scenario C, `bridge0,1`: the call succeeds and `Raw` is empty. -/
theorem processVMNet_raw_empty_witness :
    (processVMNet tableEnv quiet "ns1" "bridge0,1" world0).1 =
      Exec.ret ({ VLAN := 101, Bridge := "bridge0", MAC := "", Driver := "e1000",
                  Raw := "" }, none) ∧
    ({ VLAN := 101, Bridge := "bridge0", MAC := "", Driver := "e1000",
       Raw := "" } : NetConfig).Raw = "" :=
  ⟨by decide,
   processVMNet_raw_empty tableEnv quiet "ns1" "bridge0,1" world0 _ none (by decide)⟩

/-- C9 as stated fails: on the spec `bridge0,1` the call succeeds and the
returned record does not hold the spec in `Raw`. -/
theorem processVMNet_raw_counterexample :
    ∃ r, (processVMNet tableEnv quiet "ns1" "bridge0,1" world0).1 = Exec.ret (r, none) ∧
      r.Raw ≠ "bridge0,1" :=
  ⟨{ VLAN := 101, Bridge := "bridge0", MAC := "", Driver := "e1000", Raw := "" },
   by decide, by decide⟩

/-- C10, as the code has it: over an allocator that keeps its bindings, if
`processVMNet` succeeds on `spec` with the record `r`, then `processVMNet` on
the same `spec` in the world the first call left succeeds again, whatever the
outside answers, and returns a record equal to `r`. -/
theorem processVMNet_reparse {σ : Type} (E : Env σ) (o o' : Outside) (ns spec : String)
    (w : World σ) (r : NetConfig) (hk : E.keepsBindings)
    (h : (processVMNet E o ns spec w).1 = Exec.ret (r, none)) :
    (processVMNet E o' ns spec (processVMNet E o ns spec w).2).1 = Exec.ret (r, none) := by
  obtain ⟨b, v, m, d, i, hf, hd, hl, hm⟩ := processVMNet_success_inv E o ns spec w r h
  have h1 := processVMNet_ok E o ns spec w b v m d i hf hd hl hm
  have h2 := lookupVLAN_again E o o' ns v w i hk hl
  have h3 := processVMNet_ok E o' ns spec (lookupVLAN E o ns v w).2 b v m d i hf hd
    (by rw [h2]) hm
  rw [h1] at h
  simp only [Exec.ret.injEq, Prod.mk.injEq, and_true] at h
  rw [h1]
  simp only
  rw [h3, h]

/-- C10 on the spec of the specification,
`br0,100,00:11:22:33:44:55,e1000`: parsed twice in a row it gives the same
record. -/
theorem processVMNet_reparse_witness :
    tableEnv.keepsBindings ∧
    (processVMNet tableEnv quiet "ns1" "br0,100,00:11:22:33:44:55,e1000" world0).1 =
      Exec.ret ({ VLAN := 101, Bridge := "br0", MAC := "00:11:22:33:44:55",
                  Driver := "e1000", Raw := "" }, none) ∧
    (processVMNet tableEnv quiet "ns1" "br0,100,00:11:22:33:44:55,e1000"
      (processVMNet tableEnv quiet "ns1" "br0,100,00:11:22:33:44:55,e1000" world0).2).1 =
      Exec.ret ({ VLAN := 101, Bridge := "br0", MAC := "00:11:22:33:44:55",
                  Driver := "e1000", Raw := "" }, none) :=
  ⟨tableEnv_keepsBindings, by decide,
   processVMNet_reparse tableEnv quiet quiet "ns1" "br0,100,00:11:22:33:44:55,e1000" world0 _
     tableEnv_keepsBindings (by decide)⟩

/-- C10 as stated fails: the record built from
`br0,100,00:11:22:33:44:55,e1000` has an empty `Raw`, and `processVMNet` on
that `Raw`, in the world the first call left, fails in `lookupVLAN` on the
empty alias. -/
theorem processVMNet_reparse_counterexample :
    ∃ r, (processVMNet tableEnv quiet "ns1" "br0,100,00:11:22:33:44:55,e1000" world0).1 =
        Exec.ret (r, none) ∧
      (processVMNet tableEnv quiet "ns1" r.Raw
        (processVMNet tableEnv quiet "ns1" "br0,100,00:11:22:33:44:55,e1000" world0).2).1 =
        Exec.ret (NetConfig.zero, some (GoError.New "VLAN must be non-empty string")) :=
  ⟨{ VLAN := 101, Bridge := "br0", MAC := "00:11:22:33:44:55", Driver := "e1000", Raw := "" },
   by decide, by decide⟩

/-! ## The resolver, case by case -/

/-- On the empty alias `lookupVLAN` returns at once. -/
theorem lookupVLAN_empty {σ : Type} (E : Env σ) (o : Outside) (ns : String) (w : World σ) :
    lookupVLAN E o ns "" w =
      (Exec.ret (0, some (GoError.New "VLAN must be non-empty string")), w) := by
  simp [lookupVLAN]

/-- When `ParseVLAN` answers anything but the sentinel, `lookupVLAN` returns
that answer after the one call of `ParseVLAN`. -/
theorem lookupVLAN_parsed {σ : Type} (E : Env σ) (o : Outside) (ns a : String) (w : World σ)
    (ha : a ≠ "") (hp : (E.ParseVLAN w.alloc ns a).2 ≠ some GoError.ErrUnallocated) :
    lookupVLAN E o ns a w =
      (Exec.ret (E.ParseVLAN w.alloc ns a), w.emit (Event.ParseVLAN ns a)) := by
  unfold lookupVLAN
  simp [ha, hp]

/-- Sentinel, then `Allocate` fails: the error is returned with id 0. -/
theorem lookupVLAN_allocate_err {σ : Type} (E : Env σ) (o : Outside) (ns a : String)
    (w : World σ) (i : Int) (c : Bool) (err : GoError) (s' : σ) (ha : a ≠ "")
    (hp : (E.ParseVLAN w.alloc ns a).2 = some GoError.ErrUnallocated)
    (hal : E.Allocate w.alloc ns a = ((i, c, some err), s')) :
    lookupVLAN E o ns a w =
      (Exec.ret (0, some err),
        { alloc := s', trace := w.trace ++ [Event.ParseVLAN ns a, Event.Allocate ns a] }) := by
  unfold lookupVLAN
  simp [ha, hp, hal, World.emit]

/-- Sentinel, then `Allocate` succeeds with `created = false`: the id is
returned and nothing else is done. -/
theorem lookupVLAN_raced {σ : Type} (E : Env σ) (o : Outside) (ns a : String)
    (w : World σ) (i : Int) (s' : σ) (ha : a ≠ "")
    (hp : (E.ParseVLAN w.alloc ns a).2 = some GoError.ErrUnallocated)
    (hal : E.Allocate w.alloc ns a = ((i, false, none), s')) :
    lookupVLAN E o ns a w =
      (Exec.ret (i, none),
        { alloc := s', trace := w.trace ++ [Event.ParseVLAN ns a, Event.Allocate ns a] }) := by
  unfold lookupVLAN
  simp [ha, hp, hal, World.emit]

/-- Sentinel, `Allocate` creates the binding, the write fails: `log.Fatal`
ends the process after the write, before any send. -/
theorem lookupVLAN_write_failed {σ : Type} (E : Env σ) (o : Outside) (ns a : String)
    (w : World σ) (i : Int) (s' : σ) (e : GoError) (ha : a ≠ "")
    (hp : (E.ParseVLAN w.alloc ns a).2 = some GoError.ErrUnallocated)
    (hal : E.Allocate w.alloc ns a = ((i, true, none), s'))
    (hw : o.writeErr = some e) :
    lookupVLAN E o ns a w =
      (Exec.fatal,
        { alloc := s',
          trace := w.trace ++ [Event.ParseVLAN ns a, Event.Allocate ns a,
            Event.WriteFile E.vlansPath (E.vlanInfo s')] }) := by
  unfold lookupVLAN
  simp [ha, hp, hal, hw, World.emit, mustWrite]

/-- Sentinel, `Allocate` creates the binding, the write succeeds: the id is
returned after one write and one send, in this order; the goroutine that
reads the responses is started when the send returned no error. -/
theorem lookupVLAN_created {σ : Type} (E : Env σ) (o : Outside) (ns a : String)
    (w : World σ) (i : Int) (s' : σ) (ha : a ≠ "")
    (hp : (E.ParseVLAN w.alloc ns a).2 = some GoError.ErrUnallocated)
    (hal : E.Allocate w.alloc ns a = ((i, true, none), s'))
    (hw : o.writeErr = none) :
    lookupVLAN E o ns a w =
      (Exec.ret (i, none),
        { alloc := s',
          trace := w.trace ++ [Event.ParseVLAN ns a, Event.Allocate ns a,
            Event.WriteFile E.vlansPath (E.vlanInfo s'),
            Event.meshageSend (aliasCommand ns a i)] ++
            (if o.sendErr = none then [Event.goReadResponses] else []) }) := by
  unfold lookupVLAN
  cases hs : o.sendErr <;> simp [ha, hp, hal, hw, hs, World.emit, mustWrite, aliasCommand]

/-! ## Resolving twice, hits and the empty alias -/

/-- C12: resolving the same (namespace, alias) twice.  If `lookupVLAN` on the
non-empty alias `a` succeeded with id `i` and the allocator reports `a` bound
to `i` in the state this left, then a second `lookupVLAN` in that world
returns `i` with no error, leaves the table as it is and makes one external
call only, `ParseVLAN`: no `Allocate`, no write, no send. -/
theorem lookupVLAN_twice {σ : Type} (E : Env σ) (o o' : Outside) (ns a : String)
    (w : World σ) (i : Int) (ha : a ≠ "")
    (_h1 : (lookupVLAN E o ns a w).1 = Exec.ret (i, none))
    (hb : E.ParseVLAN (lookupVLAN E o ns a w).2.alloc ns a = (i, none)) :
    lookupVLAN E o' ns a (lookupVLAN E o ns a w).2 =
      (Exec.ret (i, none),
        { alloc := (lookupVLAN E o ns a w).2.alloc,
          trace := (lookupVLAN E o ns a w).2.trace ++ [Event.ParseVLAN ns a] }) :=
  lookupVLAN_bound E o' ns a (lookupVLAN E o ns a w).2 i ha hb

/-- C12 on the alias `DMZ`: the first call binds it to 101 with a write and a
send, the second returns 101 and adds the call of `ParseVLAN` only. -/
theorem lookupVLAN_twice_witness :
    (lookupVLAN tableEnv quiet "ns1" "DMZ" world0).1 = Exec.ret (101, none) ∧
    (lookupVLAN tableEnv quiet "ns1" "DMZ" world0).2.trace =
      [Event.ParseVLAN "ns1" "DMZ", Event.Allocate "ns1" "DMZ",
       Event.WriteFile "/tmp/minimega/vlans" "DMZ\n",
       Event.meshageSend (aliasCommand "ns1" "DMZ" 101), Event.goReadResponses] ∧
    lookupVLAN tableEnv meshDown "ns1" "DMZ" (lookupVLAN tableEnv quiet "ns1" "DMZ" world0).2 =
      (Exec.ret (101, none),
        { alloc := (lookupVLAN tableEnv quiet "ns1" "DMZ" world0).2.alloc,
          trace := (lookupVLAN tableEnv quiet "ns1" "DMZ" world0).2.trace ++
            [Event.ParseVLAN "ns1" "DMZ"] }) :=
  ⟨by decide, by decide,
   lookupVLAN_twice tableEnv quiet meshDown "ns1" "DMZ" world0 101 (by decide) (by decide)
     (by decide)⟩

/-- C13: for a non-empty alias (the only case in which `ParseVLAN` is called)
on which `ParseVLAN` answers anything but the sentinel, a hit or another
error, `lookupVLAN` returns exactly the id and the error of `ParseVLAN`, the
table is untouched and the one external call made is `ParseVLAN`: no
`Allocate`, no write, no send. -/
theorem lookupVLAN_parse_result {σ : Type} (E : Env σ) (o : Outside) (ns a : String)
    (w : World σ) (ha : a ≠ "")
    (hp : (E.ParseVLAN w.alloc ns a).2 ≠ some GoError.ErrUnallocated) :
    lookupVLAN E o ns a w =
      (Exec.ret ((E.ParseVLAN w.alloc ns a).1, (E.ParseVLAN w.alloc ns a).2),
        { alloc := w.alloc, trace := w.trace ++ [Event.ParseVLAN ns a] }) :=
  lookupVLAN_parsed E o ns a w ha hp

/-- C13 on a hit (`DMZ` bound to 7) and on an allocator error. -/
theorem lookupVLAN_parse_result_witness :
    lookupVLAN tableEnv diskFull "ns1" "DMZ" { alloc := [("ns1", "DMZ", 7)], trace := [] } =
      (Exec.ret (7, none),
        { alloc := [("ns1", "DMZ", 7)], trace := [Event.ParseVLAN "ns1" "DMZ"] }) ∧
    lookupVLAN brokenEnv diskFull "ns1" "4096" world0 =
      (Exec.ret (0, some (GoError.New "invalid VLAN (0 <= vlan < 4096)")),
        { alloc := [], trace := [Event.ParseVLAN "ns1" "4096"] }) :=
  ⟨lookupVLAN_parse_result tableEnv diskFull "ns1" "DMZ"
      { alloc := [("ns1", "DMZ", 7)], trace := [] } (by decide) (by decide),
   lookupVLAN_parse_result brokenEnv diskFull "ns1" "4096" world0 (by decide) (by decide)⟩

/-- C14: on the empty alias `lookupVLAN` fails with id 0 and an error and
leaves the world as it was (the allocator is not asked, nothing is written or
sent); on every non-empty alias the call goes on to ask the allocator: the
first thing it adds to the trace is the call of `ParseVLAN`. -/
theorem lookupVLAN_empty_alias {σ : Type} (E : Env σ) (o : Outside) (ns : String)
    (w : World σ) :
    lookupVLAN E o ns "" w =
      (Exec.ret (0, some (GoError.New "VLAN must be non-empty string")), w) ∧
    ∀ a, a ≠ "" →
      ∃ rest, (lookupVLAN E o ns a w).2.trace = w.trace ++ Event.ParseVLAN ns a :: rest := by
  refine ⟨lookupVLAN_empty E o ns w, ?_⟩
  intro a ha
  by_cases hp : (E.ParseVLAN w.alloc ns a).2 = some GoError.ErrUnallocated
  · rcases hal : E.Allocate w.alloc ns a with ⟨⟨i, c, err⟩, s'⟩
    cases err with
    | some e =>
      rw [lookupVLAN_allocate_err E o ns a w i c e s' ha hp hal]
      exact ⟨[Event.Allocate ns a], by simp⟩
    | none =>
      cases c with
      | false =>
        rw [lookupVLAN_raced E o ns a w i s' ha hp hal]
        exact ⟨[Event.Allocate ns a], by simp⟩
      | true =>
        cases hw : o.writeErr with
        | some e =>
          rw [lookupVLAN_write_failed E o ns a w i s' e ha hp hal hw]
          exact ⟨[Event.Allocate ns a, Event.WriteFile E.vlansPath (E.vlanInfo s')], by simp⟩
        | none =>
          rw [lookupVLAN_created E o ns a w i s' ha hp hal hw]
          exact ⟨Event.Allocate ns a :: Event.WriteFile E.vlansPath (E.vlanInfo s') ::
            Event.meshageSend (aliasCommand ns a i) ::
            (if o.sendErr = none then [Event.goReadResponses] else []), by simp⟩
  · rw [lookupVLAN_parsed E o ns a w ha hp]
    exact ⟨[], rfl⟩

/-- C14 evaluated: the empty alias in a world that even holds a binding for
it, and the alias `x`. -/
theorem lookupVLAN_empty_alias_witness :
    lookupVLAN tableEnv quiet "ns1" "" { alloc := [("ns1", "", 7)], trace := [] } =
      (Exec.ret (0, some (GoError.New "VLAN must be non-empty string")),
        { alloc := [("ns1", "", 7)], trace := [] }) ∧
    ∃ rest, (lookupVLAN tableEnv quiet "ns1" "x" world0).2.trace =
      world0.trace ++ Event.ParseVLAN "ns1" "x" :: rest :=
  ⟨(lookupVLAN_empty_alias tableEnv quiet "ns1" { alloc := [("ns1", "", 7)], trace := [] }).1,
   (lookupVLAN_empty_alias tableEnv quiet "ns1" world0).2 "x" (by decide)⟩

/-! ## Effects of a new binding -/

/-- C15: broadcast errors are not returned.  When `lookupVLAN` creates a new
binding with id `i` (sentinel from `ParseVLAN`, `Allocate` reports `created`)
and the table has been written, so that the broadcast is sent, the call
returns `(i, nil)` whatever error `meshageSend` returns and whatever the peers
answer on the channel; the send is the last external call and the reader of
the responses is started only when the send returned no error. -/
theorem lookupVLAN_broadcast_errors {σ : Type} (E : Env σ) (ns a : String) (w : World σ)
    (i : Int) (s' : σ) (sendErr : Option GoError) (respChan : List (List Response))
    (ha : a ≠ "")
    (hp : (E.ParseVLAN w.alloc ns a).2 = some GoError.ErrUnallocated)
    (hal : E.Allocate w.alloc ns a = ((i, true, none), s')) :
    lookupVLAN E { writeErr := none, sendErr := sendErr, respChan := respChan } ns a w =
      (Exec.ret (i, none),
        { alloc := s',
          trace := w.trace ++ [Event.ParseVLAN ns a, Event.Allocate ns a,
            Event.WriteFile E.vlansPath (E.vlanInfo s'),
            Event.meshageSend (aliasCommand ns a i)] ++
            (if sendErr = none then [Event.goReadResponses] else []) }) :=
  lookupVLAN_created E { writeErr := none, sendErr := sendErr, respChan := respChan }
    ns a w i s' ha hp hal rfl

/-- C15 with a failing send (`meshDown`) and with a peer that answers with an
error (`peerError`, which gives one line for the log): both calls return
`(101, nil)`. -/
theorem lookupVLAN_broadcast_errors_witness :
    (lookupVLAN tableEnv meshDown "ns1" "DMZ" world0).1 = Exec.ret (101, none) ∧
    (lookupVLAN tableEnv peerError "ns1" "DMZ" world0).1 = Exec.ret (101, none) ∧
    readResponses "DMZ" 101 peerError.respChan = [("DMZ", 101, "node3", "vlan in use")] :=
  ⟨congrArg Prod.fst
      (lookupVLAN_broadcast_errors tableEnv "ns1" "DMZ" world0 101 [("ns1", "DMZ", 101)]
        meshDown.sendErr meshDown.respChan (by decide) (by decide) (by decide)),
   congrArg Prod.fst
      (lookupVLAN_broadcast_errors tableEnv "ns1" "DMZ" world0 101 [("ns1", "DMZ", 101)]
        peerError.sendErr peerError.respChan (by decide) (by decide) (by decide)),
   by decide⟩

/-- C16, as the code has it: when `lookupVLAN` creates a new binding with id
`i`, it returns `(i, nil)` if the table is written, whether or not the send
that follows succeeds; if the write fails, `mustWrite` calls `log.Fatal`: the
process ends and `lookupVLAN` returns nothing. -/
theorem lookupVLAN_created_result {σ : Type} (E : Env σ) (o : Outside) (ns a : String)
    (w : World σ) (i : Int) (s' : σ) (ha : a ≠ "")
    (hp : (E.ParseVLAN w.alloc ns a).2 = some GoError.ErrUnallocated)
    (hal : E.Allocate w.alloc ns a = ((i, true, none), s')) :
    (o.writeErr = none → (lookupVLAN E o ns a w).1 = Exec.ret (i, none)) ∧
    (o.writeErr ≠ none → (lookupVLAN E o ns a w).1 = Exec.fatal) := by
  constructor
  · intro hw
    rw [lookupVLAN_created E o ns a w i s' ha hp hal hw]
  · intro hw
    cases hwe : o.writeErr with
    | none => exact absurd hwe hw
    | some e => rw [lookupVLAN_write_failed E o ns a w i s' e ha hp hal hwe]

/-- C16 evaluated on the new alias `DMZ`: with a failing send the id 101 is
returned, with a failing write the process ends. -/
theorem lookupVLAN_created_result_witness :
    (lookupVLAN tableEnv meshDown "ns1" "DMZ" world0).1 = Exec.ret (101, none) ∧
    (lookupVLAN tableEnv diskFull "ns1" "DMZ" world0).1 = Exec.fatal :=
  ⟨(lookupVLAN_created_result tableEnv meshDown "ns1" "DMZ" world0 101 [("ns1", "DMZ", 101)]
      (by decide) (by decide) (by decide)).1 (by decide),
   (lookupVLAN_created_result tableEnv diskFull "ns1" "DMZ" world0 101 [("ns1", "DMZ", 101)]
      (by decide) (by decide) (by decide)).2 (by decide)⟩

/-- C16 as stated fails: `DMZ` is unallocated, `Allocate` creates the binding
with id 101, the write fails, and `lookupVLAN` does not return 101: the call
ends in `log.Fatal`. -/
theorem lookupVLAN_created_result_counterexample :
    (tableEnv.ParseVLAN world0.alloc "ns1" "DMZ").2 = some GoError.ErrUnallocated ∧
    (tableEnv.Allocate world0.alloc "ns1" "DMZ").1 = (101, true, none) ∧
    diskFull.writeErr ≠ none ∧
    (lookupVLAN tableEnv diskFull "ns1" "DMZ" world0).1 ≠ Exec.ret (101, none) := by
  decide

/-- C19, as the code has it: after `ParseVLAN` answered the sentinel on a
non-empty alias, what `lookupVLAN` does is decided by `Allocate` and by the
write.  (1) `Allocate` succeeds with `created` and the write succeeds: the id
is returned after exactly one write and then one send.  (2) `Allocate`
succeeds with `created` and the write fails: the process ends after the one
write and nothing is sent.  (3) `Allocate` succeeds without `created`: the id
is returned, nothing is written or sent.  (4) `Allocate` fails: its error is
returned with id 0, nothing is written or sent. -/
theorem lookupVLAN_unallocated_effects {σ : Type} (E : Env σ) (o : Outside) (ns a : String)
    (w : World σ) (ha : a ≠ "")
    (hp : (E.ParseVLAN w.alloc ns a).2 = some GoError.ErrUnallocated) :
    (∀ i s', E.Allocate w.alloc ns a = ((i, true, none), s') → o.writeErr = none →
      lookupVLAN E o ns a w =
        (Exec.ret (i, none),
          { alloc := s',
            trace := w.trace ++ [Event.ParseVLAN ns a, Event.Allocate ns a,
              Event.WriteFile E.vlansPath (E.vlanInfo s'),
              Event.meshageSend (aliasCommand ns a i)] ++
              (if o.sendErr = none then [Event.goReadResponses] else []) })) ∧
    (∀ i s', E.Allocate w.alloc ns a = ((i, true, none), s') → o.writeErr ≠ none →
      lookupVLAN E o ns a w =
        (Exec.fatal,
          { alloc := s',
            trace := w.trace ++ [Event.ParseVLAN ns a, Event.Allocate ns a,
              Event.WriteFile E.vlansPath (E.vlanInfo s')] })) ∧
    (∀ i s', E.Allocate w.alloc ns a = ((i, false, none), s') →
      lookupVLAN E o ns a w =
        (Exec.ret (i, none),
          { alloc := s', trace := w.trace ++ [Event.ParseVLAN ns a, Event.Allocate ns a] })) ∧
    (∀ i c err s', E.Allocate w.alloc ns a = ((i, c, some err), s') →
      lookupVLAN E o ns a w =
        (Exec.ret (0, some err),
          { alloc := s', trace := w.trace ++ [Event.ParseVLAN ns a, Event.Allocate ns a] })) := by
  refine ⟨?_, ?_, ?_, ?_⟩
  · intro i s' hal hw
    exact lookupVLAN_created E o ns a w i s' ha hp hal hw
  · intro i s' hal hw
    cases hwe : o.writeErr with
    | none => exact absurd hwe hw
    | some e => exact lookupVLAN_write_failed E o ns a w i s' e ha hp hal hwe
  · intro i s' hal
    exact lookupVLAN_raced E o ns a w i s' ha hp hal
  · intro i c err s' hal
    exact lookupVLAN_allocate_err E o ns a w i c err s' ha hp hal

/-- C19 evaluated in the table environment on the new alias `CORE`, once with
a quiet outside and once with a failing write. -/
theorem lookupVLAN_unallocated_effects_witness :
    lookupVLAN tableEnv quiet "ns1" "CORE" world0 =
      (Exec.ret (101, none),
        { alloc := [("ns1", "CORE", 101)],
          trace := [Event.ParseVLAN "ns1" "CORE", Event.Allocate "ns1" "CORE",
            Event.WriteFile "/tmp/minimega/vlans" "CORE\n",
            Event.meshageSend (aliasCommand "ns1" "CORE" 101), Event.goReadResponses] }) ∧
    lookupVLAN tableEnv diskFull "ns1" "CORE" world0 =
      (Exec.fatal,
        { alloc := [("ns1", "CORE", 101)],
          trace := [Event.ParseVLAN "ns1" "CORE", Event.Allocate "ns1" "CORE",
            Event.WriteFile "/tmp/minimega/vlans" "CORE\n"] }) :=
  ⟨(lookupVLAN_unallocated_effects tableEnv quiet "ns1" "CORE" world0 (by decide)
      (by decide)).1 101 [("ns1", "CORE", 101)] (by decide) (by decide),
   (lookupVLAN_unallocated_effects tableEnv diskFull "ns1" "CORE" world0 (by decide)
      (by decide)).2.1 101 [("ns1", "CORE", 101)] (by decide) (by decide)⟩

/-- C19 as stated fails: on the new alias `CORE` with a failing write,
`Allocate` succeeds and reports `created`, yet no broadcast is sent: the trace
of the call is `ParseVLAN`, `Allocate` and the write. -/
theorem lookupVLAN_unallocated_effects_counterexample :
    (tableEnv.ParseVLAN world0.alloc "ns1" "CORE").2 = some GoError.ErrUnallocated ∧
    (tableEnv.Allocate world0.alloc "ns1" "CORE").1 = (101, true, none) ∧
    (lookupVLAN tableEnv diskFull "ns1" "CORE" world0).2.trace =
      [Event.ParseVLAN "ns1" "CORE", Event.Allocate "ns1" "CORE",
       Event.WriteFile "/tmp/minimega/vlans" "CORE\n"] ∧
    Event.meshageSend (aliasCommand "ns1" "CORE" 101) ∉
      (lookupVLAN tableEnv diskFull "ns1" "CORE" world0).2.trace := by
  decide

/-! ## `net.ParseMAC` and the syntax of addresses -/

/-- A hexadecimal digit is an ASCII byte. -/
theorem isHexByte_lt (b : Nat) (h : isHexByte b = true) : b < 128 := by
  unfold isHexByte hexVal at h
  split at h
  · omega
  · split at h
    · omega
    · split at h
      · omega
      · simp at h

/-- The elements of the first group satisfy `hex`. -/
theorem groupsOf_hex_at {α : Type} [DecidableEq α] (hex : α → Bool) (sep : α) (k n : Nat)
    (s : List α) (h : groupsOf hex sep k n s = true) (i : Nat) (hi : i < k) :
    ∃ b, s.get? i = some b ∧ hex b = true := by
  cases n with
  | zero => simp [groupsOf] at h
  | succ n =>
    unfold groupsOf at h
    simp only [Bool.and_eq_true, decide_eq_true_eq, List.all_eq_true] at h
    obtain ⟨⟨hlen, hall⟩, _⟩ := h
    rw [List.length_take] at hlen
    have hlt : i < s.length := by omega
    refine ⟨s.get ⟨i, hlt⟩, List.get?_eq_get hlt, ?_⟩
    apply hall
    rw [List.mem_iff_get?]
    refine ⟨i, ?_⟩
    rw [List.get?_eq_getElem?, List.getElem?_take_of_lt hi, ← List.get?_eq_getElem?, List.get?_eq_get hlt]

/-- A list shorter than one group is no group. -/
theorem groupsOf_false_of_short {α : Type} [DecidableEq α] (hex : α → Bool) (sep : α)
    (k n i : Nat) (s : List α) (hi : i < k) (hb : s.get? i = none) :
    groupsOf hex sep k n s = false := by
  cases hg : groupsOf hex sep k n s with
  | false => rfl
  | true =>
    obtain ⟨b', hb', _⟩ := groupsOf_hex_at hex sep k n s hg i hi
    rw [hb] at hb'
    exact absurd hb' (by simp)

/-- Characters are ordered by their code points. -/
theorem Char.le_iff_toNat (a b : Char) : a ≤ b ↔ a.toNat ≤ b.toNat := Iff.rfl

/-- A character is given by its code point. -/
theorem Char.eq_of_toNat (c : Char) (n : Nat) (h : c.toNat = n) : c = Char.ofNat n := by
  rw [← h, Char.ofNat_toNat]

/-- A character is a hexadecimal digit exactly when its code point is a hexadecimal digit byte. -/
theorem isHexByte_toNat (c : Char) : isHexByte c.toNat = isHexChar c := by
  unfold isHexByte isHexChar hexVal
  simp only [Char.le_iff_toNat]
  have h0 : '0'.toNat = 48 := rfl
  have h9 : '9'.toNat = 57 := rfl
  have ha : 'a'.toNat = 97 := rfl
  have hf : 'f'.toNat = 102 := rfl
  have hA : 'A'.toNat = 65 := rfl
  have hF : 'F'.toNat = 70 := rfl
  rw [h0, h9, ha, hf, hA, hF]
  by_cases h1 : 48 ≤ c.toNat ∧ c.toNat ≤ 57
  · simp [h1]
  · by_cases h2 : 97 ≤ c.toNat ∧ c.toNat ≤ 102
    · simp [h1, h2]
    · by_cases h3 : 65 ≤ c.toNat ∧ c.toNat ≤ 70
      · simp [h1, h2, h3]
      · simp [h1, h2, h3]

/-- An ASCII character is one byte. -/
theorem utf8Char_ascii (c : Char) (h : c.toNat < 128) : utf8Char c = [c.toNat] := by
  simp [utf8Char, h]

/-- The bytes of an ASCII string are the code points of its characters. -/
theorem bytes_of_ascii (l : List Char) (h : ∀ c ∈ l, c.toNat < 128) :
    (l.map utf8Char).flatten = l.map Char.toNat := by
  induction l with
  | nil => rfl
  | cons c cs ih =>
    have hc := h c (List.mem_cons_self _ _)
    have hcs : ∀ x ∈ cs, x.toNat < 128 := fun x hx => h x (List.mem_cons_of_mem _ hx)
    simp [utf8Char_ascii c hc, ih hcs]

/-- Groups are kept by a map that sends `hex` into the new `hex` and the separator to the new one. -/
theorem groupsOf_map_of {α β : Type} [DecidableEq α] [DecidableEq β] (f : α → β)
    (hex : α → Bool) (hex' : β → Bool) (sep : α) (sep' : β) (k : Nat)
    (hh : ∀ x, hex x = true → hex' (f x) = true) (hs : f sep = sep') :
    ∀ (n : Nat) (s : List α), groupsOf hex sep k n s = true →
      groupsOf hex' sep' k n (s.map f) = true := by
  intro n
  induction n with
  | zero => intro s h; simp [groupsOf] at h
  | succ n ih =>
    intro s h
    unfold groupsOf at h ⊢
    simp only [Bool.and_eq_true, decide_eq_true_eq, List.all_eq_true] at h ⊢
    obtain ⟨⟨hlen, hall⟩, hrest⟩ := h
    refine ⟨⟨?_, ?_⟩, ?_⟩
    · rw [← List.map_take, List.length_map]
      exact hlen
    · intro y hy
      rw [← List.map_take] at hy
      obtain ⟨x, hx, rfl⟩ := List.mem_map.mp hy
      exact hh x (hall x hx)
    · by_cases hn : n = 0
      · simp only [hn, if_true, decide_eq_true_eq] at hrest ⊢
        rw [← List.map_drop, hrest]
        rfl
      · simp only [hn, if_false, Bool.and_eq_true, decide_eq_true_eq] at hrest ⊢
        refine ⟨?_, ?_⟩
        · rw [List.get?_eq_getElem?, List.getElem?_map, ← List.get?_eq_getElem?, hrest.1]
          simp [hs]
        · rw [← List.map_drop]
          exact ih _ hrest.2

/-- Lower-casing keeps a hexadecimal digit a digit and makes it lower-case;
checked on the 128 ASCII characters. -/
theorem asciiLower_hex :
    ∀ n, n < 128 → isHexChar (Char.ofNat n) = true →
      isLowerHexChar (unicodeToLower (fun c => c) (Char.ofNat n)) = true := by
  decide

/-- On an ASCII character `unicode.ToLower` does not look at the tables. -/
theorem unicodeToLower_ascii (tbl : Char → Char) (c : Char) (h : c.toNat < 128) :
    unicodeToLower tbl c = unicodeToLower (fun x => x) c := by
  simp [unicodeToLower, h]

/-- Lower-casing sends a hexadecimal digit to a lower-case hexadecimal digit. -/
theorem unicodeToLower_hex (tbl : Char → Char) (c : Char) (h : isHexChar c = true) :
    isLowerHexChar (unicodeToLower tbl c) = true := by
  have hlt : c.toNat < 128 := by
    rw [← isHexByte_toNat] at h
    exact isHexByte_lt _ h
  rw [unicodeToLower_ascii tbl c hlt]
  have := asciiLower_hex c.toNat hlt
  rw [Char.ofNat_toNat] at this
  exact this h

/-- Lower-casing an address of one of the forms gives an address of the same
form in lower-case digits. -/
theorem macForms_ToLower (tbl : Char → Char) (m : String)
    (h : macForms isHexChar ':' '-' '.' m.data = true) :
    macForms isLowerHexChar ':' '-' '.' (ToLower tbl m).data = true := by
  have hc : unicodeToLower tbl ':' = ':' := by simp [unicodeToLower]
  have hd : unicodeToLower tbl '-' = '-' := by simp [unicodeToLower]
  have ht : unicodeToLower tbl '.' = '.' := by simp [unicodeToLower]
  have key : ∀ (sep : Char) (k n : Nat), unicodeToLower tbl sep = sep →
      groupsOf isHexChar sep k n m.data = true →
      groupsOf isLowerHexChar sep k n (ToLower tbl m).data = true := by
    intro sep k n hs hg
    exact groupsOf_map_of (unicodeToLower tbl) isHexChar isLowerHexChar sep sep k
      (unicodeToLower_hex tbl) hs n m.data hg
  unfold macForms at h ⊢
  simp only [Bool.or_eq_true] at h ⊢
  rcases h with (((((((h | h) | h) | h) | h) | h) | h) | h) | h
  · have := key ':' 2 6 hc h; simp [this]
  · have := key ':' 2 8 hc h; simp [this]
  · have := key ':' 2 20 hc h; simp [this]
  · have := key '-' 2 6 hd h; simp [this]
  · have := key '-' 2 8 hd h; simp [this]
  · have := key '-' 2 20 hd h; simp [this]
  · have := key '.' 4 3 ht h; simp [this]
  · have := key '.' 4 4 ht h; simp [this]
  · have := key '.' 4 10 ht h; simp [this]

/-- The MAC that the switch of `processVMNet` binds is empty or one of the
fields of the spec. -/
theorem netFields_mac_mem {σ : Type} (E : Env σ) (f : List String) (b v m d : String)
    (h : netFields E f = some (b, v, m, d)) : m = "" ∨ m ∈ f := by
  rcases f with _ | ⟨f0, _ | ⟨f1, _ | ⟨f2, _ | ⟨f3, _ | ⟨f4, rest⟩⟩⟩⟩⟩
  · simp [netFields] at h
  · simp only [netFields, Option.some.injEq, Prod.mk.injEq] at h
    exact Or.inl h.2.2.1.symm
  · simp only [netFields] at h
    by_cases h1 : isMac f1 = true
    · rw [if_pos h1] at h
      simp only [Option.some.injEq, Prod.mk.injEq] at h
      right
      rw [← h.2.2.1]
      simp
    · rw [if_neg h1] at h
      by_cases hd : E.isNetworkDriver f1 = true
      · rw [if_pos hd] at h
        simp only [Option.some.injEq, Prod.mk.injEq] at h
        exact Or.inl h.2.2.1.symm
      · rw [if_neg hd] at h
        simp only [Option.some.injEq, Prod.mk.injEq] at h
        exact Or.inl h.2.2.1.symm
  · simp only [netFields] at h
    by_cases h2 : isMac f2 = true
    · rw [if_pos h2] at h
      simp only [Option.some.injEq, Prod.mk.injEq] at h
      right
      rw [← h.2.2.1]
      simp
    · rw [if_neg h2] at h
      by_cases h1 : isMac f1 = true
      · rw [if_pos h1] at h
        simp only [Option.some.injEq, Prod.mk.injEq] at h
        right
        rw [← h.2.2.1]
        simp
      · rw [if_neg h1] at h
        simp only [Option.some.injEq, Prod.mk.injEq] at h
        exact Or.inl h.2.2.1.symm
  · simp only [netFields, Option.some.injEq, Prod.mk.injEq] at h
    right
    rw [← h.2.2.1]
    simp
  · simp [netFields] at h

/-- Lower-casing six hexadecimal octets separated by colons gives six
lower-case hexadecimal octets separated by colons. -/
theorem lowerHexColon_ToLower (tbl : Char → Char) (m : String)
    (h : sixColonOctets m = true) : lowerHexColon (ToLower tbl m) = true := by
  have hc : unicodeToLower tbl ':' = ':' := by simp [unicodeToLower]
  exact groupsOf_map_of (unicodeToLower tbl) isHexChar isLowerHexChar ':' ':' 2
    (unicodeToLower_hex tbl) hc 6 m.data h

/-! ## The MAC of a record and `isMac` -/

/-- C11, as the code has it: on every success of `processVMNet` the MAC of the
returned record is the empty string or the lower-cased text of a field of the
spec that `isMac` accepted.  When that field is six hexadecimal octets
separated by colons the MAC is six lower-case hexadecimal octets separated by
colons; a field of another form that `isMac` accepts keeps its form, with its
own separators. -/
theorem processVMNet_mac_format {σ : Type} (E : Env σ) (o : Outside) (ns spec : String)
    (w : World σ) (r : NetConfig)
    (h : (processVMNet E o ns spec w).1 = Exec.ret (r, none)) :
    r.MAC = "" ∨
    ∃ m, m ∈ Split spec ',' ∧ isMac m = true ∧ r.MAC = ToLower E.lowerTable m ∧
      (sixColonOctets m = true → lowerHexColon r.MAC = true) := by
  obtain ⟨b, v, m, d, i, hf, hd, hl, hm⟩ := processVMNet_success_inv E o ns spec w r h
  have h1 := processVMNet_ok E o ns spec w b v m d i hf hd hl hm
  rw [h1] at h
  simp only [Exec.ret.injEq, Prod.mk.injEq, and_true] at h
  have hmac : r.MAC = ToLower E.lowerTable m := by
    rw [← h]
  have hempty : m = "" → r.MAC = "" := by
    intro h0
    rw [hmac, h0]
    rfl
  rcases hm with hm | hm
  · exact Or.inl (hempty hm)
  · rcases netFields_mac_mem E _ b v m d hf with h0 | hmem
    · exact Or.inl (hempty h0)
    · right
      refine ⟨m, hmem, hm, hmac, ?_⟩
      intro h6
      rw [hmac]
      exact lowerHexColon_ToLower E.lowerTable m h6

/-- C11 on two specs.  `100,00-1A-22-33-44-55`: the MAC of the record is the
field in lower case, with its dashes.  `100,00:1A:22:33:44:55`: the MAC of the
record is six lower-case octets separated by colons. -/
theorem processVMNet_mac_format_witness :
    ((processVMNet tableEnv quiet "ns1" "100,00-1A-22-33-44-55" world0).1 =
      Exec.ret ({ VLAN := 101, Bridge := "mega_bridge", MAC := "00-1a-22-33-44-55",
                  Driver := "e1000", Raw := "" }, none) ∧
     (("00-1a-22-33-44-55" : String) = "" ∨
      ∃ m, m ∈ Split "100,00-1A-22-33-44-55" ',' ∧ isMac m = true ∧
        ("00-1a-22-33-44-55" : String) = ToLower tableEnv.lowerTable m ∧
        (sixColonOctets m = true → lowerHexColon "00-1a-22-33-44-55" = true))) ∧
    ((processVMNet tableEnv quiet "ns1" "100,00:1A:22:33:44:55" world0).1 =
      Exec.ret ({ VLAN := 101, Bridge := "mega_bridge", MAC := "00:1a:22:33:44:55",
                  Driver := "e1000", Raw := "" }, none) ∧
     sixColonOctets "00:1A:22:33:44:55" = true ∧
     lowerHexColon "00:1a:22:33:44:55" = true) :=
  ⟨⟨by decide,
    processVMNet_mac_format tableEnv quiet "ns1" "100,00-1A-22-33-44-55" world0
      { VLAN := 101, Bridge := "mega_bridge", MAC := "00-1a-22-33-44-55",
        Driver := "e1000", Raw := "" } (by decide)⟩,
   ⟨by decide, by decide, by decide⟩⟩

/-- C11 as stated fails: `100,00-1A-22-33-44-55` is parsed with success and
the MAC of the record is neither empty nor six lower-case octets separated by
colons. -/
theorem processVMNet_mac_format_counterexample :
    ∃ r, (processVMNet tableEnv quiet "ns1" "100,00-1A-22-33-44-55" world0).1 =
        Exec.ret (r, none) ∧
      r.MAC ≠ "" ∧ lowerHexColon r.MAC = false :=
  ⟨{ VLAN := 101, Bridge := "mega_bridge", MAC := "00-1a-22-33-44-55",
     Driver := "e1000", Raw := "" }, by decide, by decide, by decide⟩

set_option maxRecDepth 100000 in
/-- A byte is printed by `%02x` as its two hexadecimal digits. -/
theorem fmt02x_byte :
    ∀ v, v < 256 → fmt02x v = [Nat.digitChar (v / 16), Nat.digitChar (v % 16)] := by
  decide

/-- The sixteen digits are lower-case hexadecimal digits, ASCII, and read back
by `hexVal` as their value. -/
theorem digitChar_facts :
    ∀ d, d < 16 → isLowerHexChar (Nat.digitChar d) = true ∧
      (Nat.digitChar d).toNat < 128 ∧ hexVal (Nat.digitChar d).toNat = some d := by
  decide

/-- The function `xtoi2` reads the two digits of a byte back as the byte. -/
theorem xtoi2_digits (v e : Nat) (rest : List Nat) (hv : v < 256)
    (hr : rest = [] ∨ rest.head? = some e) :
    xtoi2 ((Nat.digitChar (v / 16)).toNat :: (Nat.digitChar (v % 16)).toNat :: rest) e
      = (v, true) := by
  have h1 := (digitChar_facts (v / 16) (by omega)).2.2
  have h2 := (digitChar_facts (v % 16) (by omega)).2.2
  have hb1 : ¬ (big ≤ v / 16) := by unfold big; omega
  have hb2 : ¬ (big ≤ v / 16 * 16 + v % 16) := by unfold big; omega
  have hval : (v / 16 * 16 + v % 16) % 256 = v := by omega
  have hcond : ¬ ((rest.length + 2 > 2) ∧
      ((Nat.digitChar (v / 16)).toNat :: (Nat.digitChar (v % 16)).toNat :: rest).get? 2
        ≠ some e) := by
    rcases hr with hr | hr
    · subst hr; simp
    · cases rest with
      | nil => simp
      | cons x xs =>
        simp at hr
        subst hr
        simp
  unfold xtoi2
  simp only [List.length_cons] at hcond ⊢
  rw [if_neg hcond]
  simp [xtoi, xtoiLoop, h1, h2, hb1, hb2, hval]

/-- The two digits of a byte followed by the separator. -/
theorem xtoi2_digits_sep (v e : Nat) (rest : List Nat) (hv : v < 256) :
    xtoi2 ((Nat.digitChar (v / 16)).toNat :: (Nat.digitChar (v % 16)).toNat :: e :: rest) e
      = (v, true) :=
  xtoi2_digits v e (e :: rest) hv (Or.inr rfl)

/-- The two digits of a byte at the end. -/
theorem xtoi2_digits_end (v e : Nat) (hv : v < 256) :
    xtoi2 [(Nat.digitChar (v / 16)).toNat, (Nat.digitChar (v % 16)).toNat] e = (v, true) :=
  xtoi2_digits v e [] hv (Or.inl rfl)

/-- The address printed from six bytes is parsed by `ParseMAC` to these six
bytes. -/
theorem ParseMAC_printed (b0 b1 b2 b3 b4 b5 : Nat) (h0 : b0 < 256) (h1 : b1 < 256)
    (h2 : b2 < 256) (h3 : b3 < 256) (h4 : b4 < 256) (h5 : b5 < 256) :
    ParseMAC
      ((Nat.digitChar (b0 / 16)).toNat :: (Nat.digitChar (b0 % 16)).toNat :: 58 ::
       (Nat.digitChar (b1 / 16)).toNat :: (Nat.digitChar (b1 % 16)).toNat :: 58 ::
       (Nat.digitChar (b2 / 16)).toNat :: (Nat.digitChar (b2 % 16)).toNat :: 58 ::
       (Nat.digitChar (b3 / 16)).toNat :: (Nat.digitChar (b3 % 16)).toNat :: 58 ::
       (Nat.digitChar (b4 / 16)).toNat :: (Nat.digitChar (b4 % 16)).toNat :: 58 ::
       (Nat.digitChar (b5 / 16)).toNat :: (Nat.digitChar (b5 % 16)).toNat :: [])
      = some [b0, b1, b2, b3, b4, b5] := by
  unfold ParseMAC
  simp only [List.length_cons, List.length_nil]
  simp only [List.get?_cons_succ, List.get?_cons_zero, List.getD_cons_succ, List.getD_cons_zero]
  norm_num
  simp only [macOctets, List.drop_succ_cons, List.drop_zero]
  rw [xtoi2_digits_sep b0 58 _ h0, xtoi2_digits_sep b1 58 _ h1,
    xtoi2_digits_sep b2 58 _ h2, xtoi2_digits_sep b3 58 _ h3,
    xtoi2_digits_sep b4 58 _ h4, xtoi2_digits_end b5 58 h5]
  rfl

/-- The loop of `init` appends the keys to what it has. -/
theorem init_foldl (keys acc : List (Fin 256 × Fin 256 × Fin 256)) :
    keys.foldl (fun validMACPrefix k => validMACPrefix ++ [k]) acc = acc ++ keys := by
  induction keys generalizing acc with
  | nil => simp
  | cons k ks ih => simp [ih]

/-- After `init` the table holds the keys of the map, in the order visited. -/
theorem init_eq (keys : List (Fin 256 × Fin 256 × Fin 256)) : init keys = keys := by
  unfold init
  rw [init_foldl]
  rfl

/-- The characters of an address printed from six bytes. -/
theorem sprintfMac_data (b0 b1 b2 b3 b4 b5 : Nat) (h0 : b0 < 256) (h1 : b1 < 256)
    (h2 : b2 < 256) (h3 : b3 < 256) (h4 : b4 < 256) (h5 : b5 < 256) :
    (sprintfMac b0 b1 b2 b3 b4 b5).data =
      [Nat.digitChar (b0 / 16), Nat.digitChar (b0 % 16), ':',
       Nat.digitChar (b1 / 16), Nat.digitChar (b1 % 16), ':',
       Nat.digitChar (b2 / 16), Nat.digitChar (b2 % 16), ':',
       Nat.digitChar (b3 / 16), Nat.digitChar (b3 % 16), ':',
       Nat.digitChar (b4 / 16), Nat.digitChar (b4 % 16), ':',
       Nat.digitChar (b5 / 16), Nat.digitChar (b5 % 16)] := by
  unfold sprintfMac
  rw [fmt02x_byte b0 h0, fmt02x_byte b1 h1, fmt02x_byte b2 h2, fmt02x_byte b3 h3,
    fmt02x_byte b4 h4, fmt02x_byte b5 h5]
  rfl

/-- The bytes of an address printed from six bytes. -/
theorem sprintfMac_bytes (b0 b1 b2 b3 b4 b5 : Nat) (h0 : b0 < 256) (h1 : b1 < 256)
    (h2 : b2 < 256) (h3 : b3 < 256) (h4 : b4 < 256) (h5 : b5 < 256) :
    goBytes (sprintfMac b0 b1 b2 b3 b4 b5) =
      (Nat.digitChar (b0 / 16)).toNat :: (Nat.digitChar (b0 % 16)).toNat :: 58 ::
       (Nat.digitChar (b1 / 16)).toNat :: (Nat.digitChar (b1 % 16)).toNat :: 58 ::
       (Nat.digitChar (b2 / 16)).toNat :: (Nat.digitChar (b2 % 16)).toNat :: 58 ::
       (Nat.digitChar (b3 / 16)).toNat :: (Nat.digitChar (b3 % 16)).toNat :: 58 ::
       (Nat.digitChar (b4 / 16)).toNat :: (Nat.digitChar (b4 % 16)).toNat :: 58 ::
       (Nat.digitChar (b5 / 16)).toNat :: (Nat.digitChar (b5 % 16)).toNat :: [] := by
  have hd : ∀ d, d < 16 → (Nat.digitChar d).toNat < 128 := fun d hd => (digitChar_facts d hd).2.1
  unfold goBytes
  rw [sprintfMac_data b0 b1 b2 b3 b4 b5 h0 h1 h2 h3 h4 h5]
  rw [bytes_of_ascii]
  · rfl
  · intro c hc
    simp only [List.mem_cons, List.mem_singleton, List.not_mem_nil, or_false] at hc
    rcases hc with h | h | h | h | h | h | h | h | h | h | h | h | h | h | h | h | h <;>
      first
        | (rw [h]; exact hd _ (by omega))
        | (rw [h]; decide)

/-- An address printed from six bytes is six lower-case octets separated by
colons. -/
theorem sprintfMac_lowerHexColon (b0 b1 b2 b3 b4 b5 : Nat) (h0 : b0 < 256) (h1 : b1 < 256)
    (h2 : b2 < 256) (h3 : b3 < 256) (h4 : b4 < 256) (h5 : b5 < 256) :
    lowerHexColon (sprintfMac b0 b1 b2 b3 b4 b5) = true := by
  have hd : ∀ d, d < 16 → isLowerHexChar (Nat.digitChar d) = true :=
    fun d hd => (digitChar_facts d hd).1
  unfold lowerHexColon
  rw [sprintfMac_data b0 b1 b2 b3 b4 b5 h0 h1 h2 h3 h4 h5]
  simp [groupsOf, hd (b0 / 16) (by omega), hd (b0 % 16) (by omega),
    hd (b1 / 16) (by omega), hd (b1 % 16) (by omega),
    hd (b2 / 16) (by omega), hd (b2 % 16) (by omega),
    hd (b3 / 16) (by omega), hd (b3 % 16) (by omega),
    hd (b4 / 16) (by omega), hd (b4 % 16) (by omega),
    hd (b5 / 16) (by omega), hd (b5 % 16) (by omega)]

/-- Under a table that is not empty `randomMac` does not panic: the index is
in range and the result is the address printed from the entry and the three
drawn bytes. -/
theorem randomMac_eq (tbl : List (Fin 256 × Fin 256 × Fin 256)) (raw0 raw1 raw2 raw3 : Nat)
    (hne : tbl ≠ []) :
    ∃ pfx, tbl.get? (raw0 % tbl.length) = some pfx ∧
      randomMac tbl raw0 raw1 raw2 raw3 =
        some (sprintfMac pfx.1.val pfx.2.1.val pfx.2.2.val
          (raw1 % 256) (raw2 % 256) (raw3 % 256)) := by
  have hlen : 0 < tbl.length := List.length_pos.mpr hne
  have hi : raw0 % tbl.length < tbl.length := Nat.mod_lt _ hlen
  refine ⟨tbl.get ⟨raw0 % tbl.length, hi⟩, List.get?_eq_get hi, ?_⟩
  unfold randomMac Intn
  have h0 : tbl.length ≠ 0 := by omega
  simp only [h0, if_false, List.get?_eq_get hi]
  rfl

/-! ## `randomMac` -/

/-- C18: whenever the table of valid MAC prefixes (built by `init` from the
keys of the map) is not empty, for every outcome of the four draws `randomMac`
returns an address: the index it computes is in range, the address is the
entry of the table at that index followed by three bytes, printed as 17
characters, six lower-case hexadecimal octets separated by colons, and both
`isMac` and `allocatedMac` hold of it. -/
theorem randomMac_allocated (keys : List (Fin 256 × Fin 256 × Fin 256))
    (raw0 raw1 raw2 raw3 : Nat) (hne : init keys ≠ []) :
    ∃ mac pfx,
      randomMac (init keys) raw0 raw1 raw2 raw3 = some mac ∧
      raw0 % (init keys).length < (init keys).length ∧
      (init keys).get? (raw0 % (init keys).length) = some pfx ∧
      mac = sprintfMac pfx.1.val pfx.2.1.val pfx.2.2.val
        (raw1 % 256) (raw2 % 256) (raw3 % 256) ∧
      mac.data.take 8 =
        fmt02x pfx.1.val ++ ':' :: (fmt02x pfx.2.1.val ++ ':' :: fmt02x pfx.2.2.val) ∧
      mac.length = 17 ∧
      lowerHexColon mac = true ∧
      isMac mac = true ∧
      allocatedMac keys mac = true := by
  obtain ⟨pfx, hget, hr⟩ := randomMac_eq (init keys) raw0 raw1 raw2 raw3 hne
  have hlen : 0 < (init keys).length := List.length_pos.mpr hne
  have h0 : pfx.1.val < 256 := pfx.1.isLt
  have h1 : pfx.2.1.val < 256 := pfx.2.1.isLt
  have h2 : pfx.2.2.val < 256 := pfx.2.2.isLt
  have h3 : raw1 % 256 < 256 := Nat.mod_lt _ (by omega)
  have h4 : raw2 % 256 < 256 := Nat.mod_lt _ (by omega)
  have h5 : raw3 % 256 < 256 := Nat.mod_lt _ (by omega)
  have hdata := sprintfMac_data _ _ _ _ _ _ h0 h1 h2 h3 h4 h5
  have hparse : ParseMAC (goBytes (sprintfMac pfx.1.val pfx.2.1.val pfx.2.2.val
      (raw1 % 256) (raw2 % 256) (raw3 % 256))) =
      some [pfx.1.val, pfx.2.1.val, pfx.2.2.val, raw1 % 256, raw2 % 256, raw3 % 256] := by
    rw [sprintfMac_bytes _ _ _ _ _ _ h0 h1 h2 h3 h4 h5]
    exact ParseMAC_printed _ _ _ _ _ _ h0 h1 h2 h3 h4 h5
  refine ⟨_, pfx, hr, Nat.mod_lt _ hlen, hget, rfl, ?_, ?_, ?_, ?_, ?_⟩
  · rw [hdata, fmt02x_byte _ h0, fmt02x_byte _ h1, fmt02x_byte _ h2]
    rfl
  · change (sprintfMac _ _ _ _ _ _).data.length = 17
    rw [hdata]
    rfl
  · exact sprintfMac_lowerHexColon _ _ _ _ _ _ h0 h1 h2 h3 h4 h5
  · unfold isMac
    rw [hparse]
    rfl
  · unfold allocatedMac
    rw [hparse]
    simp only [List.any_eq_true, decide_eq_true_eq]
    refine ⟨pfx, ?_, ?_⟩
    · rw [init_eq] at hget
      exact List.get?_mem hget
    · simp

/-- C18 on a table of two prefixes and the draws 7, 255, 16, 3: the address
is `fc:0a:33:ff:10:03`. -/
theorem randomMac_allocated_witness :
    init [(0x00, 0x1b, 0x21), (0xfc, 0x0a, 0x33)] ≠ [] ∧
    randomMac (init [(0x00, 0x1b, 0x21), (0xfc, 0x0a, 0x33)]) 7 255 16 3 =
      some "fc:0a:33:ff:10:03" ∧
    isMac "fc:0a:33:ff:10:03" = true ∧
    allocatedMac [(0x00, 0x1b, 0x21), (0xfc, 0x0a, 0x33)] "fc:0a:33:ff:10:03" = true ∧
    ∃ mac pfx,
      randomMac (init [(0x00, 0x1b, 0x21), (0xfc, 0x0a, 0x33)]) 7 255 16 3 = some mac ∧
      7 % (init [(0x00, 0x1b, 0x21), (0xfc, 0x0a, 0x33)]).length <
        (init [(0x00, 0x1b, 0x21), (0xfc, 0x0a, 0x33)]).length ∧
      (init [(0x00, 0x1b, 0x21), (0xfc, 0x0a, 0x33)]).get?
        (7 % (init [(0x00, 0x1b, 0x21), (0xfc, 0x0a, 0x33)]).length) = some pfx ∧
      mac = sprintfMac pfx.1.val pfx.2.1.val pfx.2.2.val (255 % 256) (16 % 256) (3 % 256) ∧
      mac.data.take 8 =
        fmt02x pfx.1.val ++ ':' :: (fmt02x pfx.2.1.val ++ ':' :: fmt02x pfx.2.2.val) ∧
      mac.length = 17 ∧
      lowerHexColon mac = true ∧
      isMac mac = true ∧
      allocatedMac [(0x00, 0x1b, 0x21), (0xfc, 0x0a, 0x33)] mac = true :=
  ⟨by decide, by decide, by decide, by decide,
   randomMac_allocated [(0x00, 0x1b, 0x21), (0xfc, 0x0a, 0x33)] 7 255 16 3 (by decide)⟩

/-! ## Lemmas on `strings.Fields` and `strings.TrimSpace` -/

/-- A text of words is not empty. -/
theorem Words.ne_nil {l : List Char} (h : Words l) : l ≠ [] := by
  cases h with
  | one w hne hw => exact hne
  | more w t hne hw ht => simp

/-- A text of words has no double quote. -/
theorem Words.noquote {l : List Char} (h : Words l) : ∀ c ∈ l, c ≠ '"' := by
  induction h with
  | one w hne hw => exact fun c hc => (hw c hc).2
  | more w t hne hw ht ih =>
    intro c hc
    rcases List.mem_append.mp hc with hc | hc
    · exact (hw c hc).2
    · rcases List.mem_cons.mp hc with hc | hc
      · rw [hc]; decide
      · exact ih c hc

/-- A character that is neither white space nor a quote extends the first
word of a text of words. -/
theorem Words.cons {l : List Char} (c : Char) (hc : IsSpace c = false ∧ c ≠ '"')
    (h : Words l) : Words (c :: l) := by
  cases h with
  | one _ hne hw =>
    refine Words.one (c :: l) (by simp) ?_
    intro x hx
    rcases List.mem_cons.mp hx with hx | hx
    · rw [hx]; exact hc
    · exact hw x hx
  | more w t hne hw ht =>
    have : c :: (w ++ ' ' :: t) = (c :: w) ++ ' ' :: t := rfl
    rw [this]
    refine Words.more (c :: w) t (by simp) ?_ ht
    intro x hx
    rcases List.mem_cons.mp hx with hx | hx
    · rw [hx]; exact hc
    · exact hw x hx

end Minimega
